import Mathlib

set_option maxHeartbeats 1000000
set_option maxRecDepth 4000

namespace PhoneCommander

/-!
Shallow embedding of the device session protocol of this repository:
the `TCPServer` class (connection handling, newline framing, authentication,
heartbeat sweeping, command dispatch) and the `DeviceManager` class
(device map, command routing, WebSocket observer fan-out), as wired
together by `registerRoutes` (a `DeviceManager` is constructed on the
`TCPServer` and registers its event listeners).

Byte strings on the wire are modelled as lists of characters; machine
timestamps (`Date.now()`) as natural numbers of milliseconds.
-/

/-- A raw character string on the wire (the result of `data.toString()`),
modelled as a list of characters. -/
abbrev Str := List Char

/-- Characters stripped by JavaScript `String.prototype.trim`. -/
def isWs (c : Char) : Bool := c = ' ' || c = '\t' || c = '\n' || c = '\r'

/-- JavaScript `line.trim()`: strips whitespace from both ends. -/
def trim (s : Str) : Str := ((s.dropWhile isWs).reverse.dropWhile isWs).reverse

/-- The check on lines 76-80 of `tcp-server.ts`: a chunk is rejected when the
raw incoming chunk string starts with `GET `, `POST ` or `HTTP/`. -/
def isHttpChunk (s : Str) : Bool :=
  "GET ".toList.isPrefixOf s || "POST ".toList.isPrefixOf s || "HTTP/".toList.isPrefixOf s

/-- JavaScript `buffer.split('\n')`: the list of segments of `s` between
newline characters.  Always non-empty; no segment contains a newline. -/
def splitNl : Str → List Str
  | [] => [[]]
  | c :: cs =>
    match splitNl cs with
    | [] => [[]]
    | l :: ls => if c = '\n' then [] :: l :: ls else (c :: l) :: ls

/-- Helper for reasoning about `splitNl` on appended strings: prepend `x`
to the first segment of a segment list. -/
def consHead (x : Str) : List Str → List Str
  | [] => [x]
  | l :: ls => (x ++ l) :: ls

/-- The complete lines of the buffer: everything `lines` holds after
`buffer = lines.pop() || ''` on line 86 of `tcp-server.ts`. -/
def completeLines (s : Str) : List Str := (splitNl s).dropLast

/-- The incomplete trailing line retained in the per-connection buffer
(the popped last element of the split). -/
def lastPart (s : Str) : Str := (splitNl s).getLastD []

/-- The fields of a `device_info` payload that `authenticateDevice` reads
(`message.data`).  Every field is optional: the JavaScript object may lack
any of them. -/
structure DeviceInfo where
  packageName : Option String := none
  deviceName : Option String := none
  androidVersion : Option String := none
  deviceModel : Option String := none
  batteryLevel : Option Nat := none
  screenWidth : Option Nat := none
  screenHeight : Option Nat := none
deriving DecidableEq, Repr

/-- The dynamic `data` field of a `TCPMessage`: absent, a device-info
object, a plain string (error texts, auth status), or a command payload
such as touch coordinates or a screen-poll request. -/
inductive MsgData where
  | nil : MsgData
  | info (d : DeviceInfo) : MsgData
  | text (s : String) : MsgData
  | touch (x y : Int) (action : String) : MsgData
  | screen (quality fmt : String) (compression : Nat) : MsgData
deriving DecidableEq, Repr

/-- The `TCPMessage` interface of `tcp-server.ts`. -/
structure TCPMessage where
  type : String
  deviceId : Option String := none
  data : MsgData := .nil
  timestamp : Nat := 0
deriving DecidableEq, Repr

/-- The `DeviceConnection` interface of `tcp-server.ts`.  The JavaScript
object's `socket` reference is represented by the socket's numeric id;
object identity of a `DeviceConnection` coincides with its socket (each
connection closure authenticates at most once). -/
structure DeviceConnection where
  sockId : Nat
  deviceId : String
  isAuthenticated : Bool
  lastHeartbeat : Nat
deriving DecidableEq, Repr

/-- A device row of the external persistence collaborator (`devices` table):
the fields the session core reads and writes.  `lastSeen`, `tcpAddress`,
`tcpPort` and `metadata` are elided (never read by the core). -/
structure Device where
  id : String
  name : String
  androidVersion : String
  deviceModel : String
  packageName : String
  batteryLevel : Nat
  isConnected : Bool
  screenWidth : Nat
  screenHeight : Nat
deriving DecidableEq, Repr

/-- A session row (`sessions` table): id, owning device, active flag. -/
structure SessionRec where
  sid : Nat
  deviceId : String
  isActive : Bool
deriving DecidableEq, Repr

/-- An activity-log row: the device and the log type (message text elided). -/
structure ActivityLog where
  deviceId : String
  kind : String
deriving DecidableEq, Repr

/-- The state of the persistence collaborator, with counters generating the
fresh ids that the database would generate. -/
structure Storage where
  devices : List Device := []
  sessions : List SessionRec := []
  logs : List ActivityLog := []
  nextDid : Nat := 0
  nextSid : Nat := 0
deriving DecidableEq, Repr

/-- A TCP socket handle: destroyed/half-closed flags and the frames written
to it (`socket.write(JSON.stringify(m) + "\n")`). -/
structure Sock where
  sockId : Nat
  destroyed : Bool := false
  endedW : Bool := false
  writes : List TCPMessage := []
deriving DecidableEq, Repr

/-- A device entry of `DeviceManager`'s own `devices` map (fields the
manager reads; display metadata elided). -/
structure DMDevice where
  id : String
  isConnected : Bool
deriving DecidableEq, Repr

/-- A WebSocket observer of the dashboard fan-out.  `readyOpen` models
`ws.readyState === WebSocket.OPEN`; `sendFails` models whether `ws.send`
throws; `received` records the events actually delivered. -/
structure WS where
  wsId : Nat
  readyOpen : Bool
  sendFails : Bool
  received : List String := []
deriving DecidableEq, Repr

/-- The whole wired system: the `TCPServer`'s connection map (device id to
the bound connection object, referenced by socket id), the table of all
`DeviceConnection` objects, the screen-poll timers, the sockets, the
persistence state, and the `DeviceManager` constructed on it by
`registerRoutes` (`dmAttached` is false only in the window before
`new DeviceManager(tcpServer)` has registered its listeners). -/
structure SystemState where
  connections : List (String × Nat) := []
  connTable : List DeviceConnection := []
  screenIntervals : List String := []
  sockets : List Sock := []
  store : Storage := {}
  dmAttached : Bool := true
  dmDevices : List DMDevice := []
  wsClients : List WS := []
deriving DecidableEq, Repr

/-- The per-connection closure state of `handleConnection`: the socket, the
`deviceConnection` variable (non-null iff authenticated; the object itself
lives in the connection table under this socket id), the read buffer, and
whether the server has ended the connection. -/
structure ConnLocal where
  sockId : Nat
  authed : Bool := false
  buffer : Str := []
  ended : Bool := false
deriving DecidableEq, Repr

/-- JavaScript `Map.prototype.get`. -/
def mapGet (m : List (String × Nat)) (k : String) : Option Nat :=
  (m.find? (fun p => p.1 = k)).map (fun p => p.2)

/-- JavaScript `Map.prototype.set`: replaces in place when the key exists,
appends otherwise (insertion order preserved). -/
def mapSet (m : List (String × Nat)) (k : String) (v : Nat) : List (String × Nat) :=
  if m.any (fun p => p.1 = k) then m.map (fun p => if p.1 = k then (k, v) else p)
  else m ++ [(k, v)]

/-- JavaScript `Map.prototype.delete`. -/
def mapDelete (m : List (String × Nat)) (k : String) : List (String × Nat) :=
  m.filter (fun p => ¬ p.1 = k)

/-- Look up a connection object by its socket id. -/
def tableGet (t : List DeviceConnection) (ref : Nat) : Option DeviceConnection :=
  t.find? (fun e => e.sockId = ref)

/-- Record a newly created connection object. -/
def tableSet (t : List DeviceConnection) (dc : DeviceConnection) : List DeviceConnection :=
  if t.any (fun e => e.sockId = dc.sockId) then
    t.map (fun e => if e.sockId = dc.sockId then dc else e)
  else t ++ [dc]

/-- The in-place mutation `connection.lastHeartbeat = Date.now()` on
line 195 of `tcp-server.ts`. -/
def touchHeartbeat (t : List DeviceConnection) (ref : Nat) (now : Nat) :
    List DeviceConnection :=
  t.map (fun e => if e.sockId = ref then { e with lastHeartbeat := now } else e)

/-- Look up a socket by id. -/
def getSock (st : SystemState) (ref : Nat) : Option Sock :=
  st.sockets.find? (fun s => s.sockId = ref)

/-- `sendMessage(socket, m)`: `socket.write(JSON.stringify(m) + "\n")`
inside try/catch; a write on a destroyed socket fails and is swallowed. -/
def writeSock (st : SystemState) (ref : Nat) (m : TCPMessage) : SystemState :=
  { st with sockets := st.sockets.map (fun s =>
      if s.sockId = ref then
        if s.destroyed then s else { s with writes := s.writes ++ [m] }
      else s) }

/-- `socket.end('HTTP/1.1 400 Bad Request...')`: half-closes the socket
(the literal HTTP reply string is not a protocol frame and is elided). -/
def endSock (st : SystemState) (ref : Nat) : SystemState :=
  { st with sockets := st.sockets.map (fun s =>
      if s.sockId = ref then { s with endedW := true } else s) }

/-- `socket.destroy()`. -/
def destroySock (st : SystemState) (ref : Nat) : SystemState :=
  { st with sockets := st.sockets.map (fun s =>
      if s.sockId = ref then { s with destroyed := true } else s) }

/-- JavaScript `a || b` for an optional string field: the default is used
when the field is absent or the empty string (falsy). -/
def jsOrStr (o : Option String) (d : String) : String :=
  match o with
  | some s => if s = "" then d else s
  | none => d

/-- JavaScript `a || b` for an optional numeric field: the default is used
when the field is absent or `0` (falsy). -/
def jsOrNat (o : Option Nat) (d : Nat) : Nat :=
  match o with
  | some n => if n = 0 then d else n
  | none => d

/-- `storage.updateDevice(id, patch)`: merge the patch into the row with
that id (no-op when the id is unknown). -/
def updateDevice (devs : List Device) (did : String) (f : Device → Device) : List Device :=
  devs.map (fun d => if d.id = did then f d else d)

/-- The loop over `storage.getSessionsByDevice` ending every active session
of the device via `storage.endSession`. -/
def endActiveSessions (ss : List SessionRec) (did : String) : List SessionRec :=
  ss.map (fun s => if s.deviceId = did ∧ s.isActive then { s with isActive := false } else s)

/-- One observer's treatment during a broadcast: an observer whose
`readyState` is OPEN is written to (`ws.send` inside try/catch); when the
send throws it is deleted from the set (`none`); a non-open observer is
skipped but kept. -/
def broadcastStep (msg : String) (ws : WS) : Option WS :=
  if ws.readyOpen then
    if ws.sendFails then none
    else some { ws with received := ws.received ++ [msg] }
  else some ws

/-- `DeviceManager.broadcastToWebClients`: iterate the observer set,
treating each observer independently. -/
def broadcastToWebClients (clients : List WS) (msg : String) : List WS :=
  clients.filterMap (broadcastStep msg)

/-- `DeviceManager.broadcastDevicesList`: broadcast a `devices_update`
event (the serialized list payload is elided to the event name). -/
def broadcastDevicesList (st : SystemState) : SystemState :=
  { st with wsClients := broadcastToWebClients st.wsClients "devices_update" }

/-- `DeviceManager.unregisterDevice`: when the device is known to the
manager, mark it disconnected, broadcast `device_disconnected`, and
broadcast the updated devices list (the delayed 60 s removal is elided). -/
def unregisterDevice (st : SystemState) (did : String) : SystemState :=
  match st.dmDevices.find? (fun d => d.id = did) with
  | none => st
  | some _ =>
    let st1 := { st with
      dmDevices := st.dmDevices.map (fun d =>
        if d.id = did then { d with isConnected := false } else d),
      wsClients := broadcastToWebClients st.wsClients "device_disconnected" }
    broadcastDevicesList st1

/-- `DeviceManager.updateDeviceScreen`: broadcast a `screen_update` event
when the manager knows the device (no-op otherwise). -/
def updateDeviceScreen (st : SystemState) (did : String) : SystemState :=
  match st.dmDevices.find? (fun d => d.id = did) with
  | none => st
  | some _ =>
    { st with wsClients := broadcastToWebClients st.wsClients "screen_update" }

/-- The `error` notification sent from the catch branch of the data
handler: `{ type: "error", data: "Invalid message format", timestamp }`. -/
def errMsg (now : Nat) : TCPMessage :=
  { type := "error", data := .text "Invalid message format", timestamp := now }

/-- `TCPServer.authenticateDevice` (lines 126-192): find or create the
device row by package name, open a session row, log the connection, send
the authentication response, and return the new `DeviceConnection`.
The catch branch fires when the payload is not an object carrying a
`packageName` string (property access on a missing payload throws, and a
device insert without the non-null `package_name` column fails): it sends
an `error` frame and yields no connection. -/
def authenticateDevice (st : SystemState) (sockId : Nat) (msg : TCPMessage) (now : Nat) :
    SystemState × Option DeviceConnection :=
  match msg.data with
  | .info info =>
    match info.packageName with
    | some pkg =>
      let (st1, dev) :=
        match st.store.devices.find? (fun d => d.packageName = pkg) with
        | none =>
          let dev : Device := {
            id := "dev-" ++ toString st.store.nextDid,
            name := jsOrStr info.deviceName "Unknown Device",
            androidVersion := jsOrStr info.androidVersion "Unknown",
            deviceModel := jsOrStr info.deviceModel "Unknown",
            packageName := pkg,
            batteryLevel := jsOrNat info.batteryLevel 0,
            isConnected := true,
            screenWidth := jsOrNat info.screenWidth 1080,
            screenHeight := jsOrNat info.screenHeight 1920 }
          ({ st with store := { st.store with
              devices := st.store.devices ++ [dev],
              nextDid := st.store.nextDid + 1 } }, dev)
        | some dev0 =>
          ({ st with store := { st.store with
              devices := updateDevice st.store.devices dev0.id (fun d =>
                { d with isConnected := true,
                         batteryLevel := jsOrNat info.batteryLevel dev0.batteryLevel }) } },
           dev0)
      let st2 := { st1 with store := { st1.store with
        sessions := st1.store.sessions ++
          [{ sid := st1.store.nextSid, deviceId := dev.id, isActive := true }],
        nextSid := st1.store.nextSid + 1,
        logs := st1.store.logs ++ [{ deviceId := dev.id, kind := "connection" }] } }
      let st3 := writeSock st2 sockId
        { type := "command_response", deviceId := some dev.id,
          data := .text "authenticated", timestamp := now }
      (st3, some { sockId := sockId, deviceId := dev.id,
                   isAuthenticated := true, lastHeartbeat := now })
    | none =>
      (writeSock st sockId
        { type := "error", data := .text "Authentication failed", timestamp := now }, none)
  | _ =>
    (writeSock st sockId
      { type := "error", data := .text "Authentication failed", timestamp := now }, none)

/-- `TCPServer.handleMessage` (lines 194-213): refresh the connection's
activity timestamp, then dispatch by type.  `screen_data` reaches
`DeviceManager.updateDeviceScreen` through the wired listener;
`command_response` is re-emitted on the manager (which has no listeners);
`heartbeat` and unknown types have no further effect. -/
def handleMessage (st : SystemState) (dc : DeviceConnection) (now : Nat) (m : TCPMessage) :
    SystemState :=
  let st1 := { st with connTable := touchHeartbeat st.connTable dc.sockId now }
  if m.type = "screen_data" then
    if st1.dmAttached then updateDeviceScreen st1 dc.deviceId else st1
  else st1

/-- The `deviceConnection?.isAuthenticated` test of the data handler:
true iff the closure variable is set and the referenced connection object
is authenticated. -/
def connAuthed (st : SystemState) (c : ConnLocal) : Bool :=
  c.authed && (match tableGet st.connTable c.sockId with
               | some dc => dc.isAuthenticated
               | none => false)

/-- The `for (const line of lines)` loop of the data handler (lines
88-105) together with its enclosing try/catch.  Returns the final system
state, the connection closure state, the records successfully parsed and
dispatched (in order), and whether the catch branch fired (sending one
`error` notification and abandoning the remaining lines of the chunk).

On a `device_info` record pre-authentication, `authenticateDevice` runs;
on success the connection object is stored, the registry binding is
installed, and `device_connected` is emitted.  With the `DeviceManager`
listeners attached (the wired program), that listener invokes
`registerDevice` with an undefined payload argument, which throws on its
first property access; the exception reaches the catch branch, so the
remaining lines are dropped and `startScreenCapture` is never reached.
Without listeners the loop continues and the screen-poll timer starts. -/
def runConnLines (parse : Str → Option TCPMessage) (now : Nat) :
    SystemState → ConnLocal → List Str → SystemState × ConnLocal × List Str × Bool
  | st, c, [] => (st, c, [], false)
  | st, c, l :: ls =>
    let t := trim l
    if t = [] then runConnLines parse now st c ls
    else
      match parse t with
      | none => (writeSock st c.sockId (errMsg now), c, [], true)
      | some m =>
        if m.type = "device_info" ∧ ¬ connAuthed st c then
          match authenticateDevice st c.sockId m now with
          | (st1, some dc) =>
            let st2 := { st1 with
              connTable := tableSet st1.connTable dc,
              connections := mapSet st1.connections dc.deviceId c.sockId }
            if st2.dmAttached then
              (writeSock st2 c.sockId (errMsg now), { c with authed := true }, [t], true)
            else
              let st3 := { st2 with screenIntervals :=
                if st2.screenIntervals.contains dc.deviceId then st2.screenIntervals
                else st2.screenIntervals ++ [dc.deviceId] }
              let r := runConnLines parse now st3 { c with authed := true } ls
              (r.1, r.2.1, t :: r.2.2.1, r.2.2.2)
          | (st1, none) =>
            let r := runConnLines parse now st1 c ls
            (r.1, r.2.1, t :: r.2.2.1, r.2.2.2)
        else if connAuthed st c then
          let st1 :=
            match tableGet st.connTable c.sockId with
            | some dc => handleMessage st dc now m
            | none => st
          let r := runConnLines parse now st1 c ls
          (r.1, r.2.1, t :: r.2.2.1, r.2.2.2)
        else
          let r := runConnLines parse now st c ls
          (r.1, r.2.1, t :: r.2.2.1, r.2.2.2)

/-- One `data` event of `handleConnection` (lines 71-110): reject a chunk
whose raw text looks like an HTTP request line (ending the socket), else
append to the buffer, split on newlines, retain the trailing partial line,
and process the complete lines.  A connection the server has already ended
processes nothing further. -/
def handleData (parse : Str → Option TCPMessage) (now : Nat)
    (st : SystemState) (c : ConnLocal) (chunk : Str) :
    SystemState × ConnLocal × List Str × Bool :=
  if c.ended then (st, c, [], false)
  else if isHttpChunk chunk then
    (endSock st c.sockId, { c with ended := true }, [], false)
  else
    let buf := c.buffer ++ chunk
    runConnLines parse now st { c with buffer := lastPart buf } (completeLines buf)

/-- Feed a sequence of data chunks to one connection, collecting the
dispatched records and the number of catch-branch activations. -/
def feedConn (parse : Str → Option TCPMessage) (now : Nat) :
    SystemState → ConnLocal → List Str → SystemState × ConnLocal × List Str × Nat
  | st, c, [] => (st, c, [], 0)
  | st, c, chunk :: rest =>
    let r := handleData parse now st c chunk
    let r2 := feedConn parse now r.1 r.2.1 rest
    (r2.1, r2.2.1, r.2.2.1 ++ r2.2.2.1, (if r.2.2.2 then 1 else 0) + r2.2.2.2)

/-- `TCPServer.handleDisconnection` (lines 215-244): delete the registry
binding for the connection's device id (unconditionally), clear its
screen-poll timer, mark the device row disconnected, end its active
sessions, log the disconnection, and emit `device_disconnected` (handled
by `DeviceManager.unregisterDevice` when the manager is attached). -/
def handleDisconnection (st : SystemState) (conn : DeviceConnection) : SystemState :=
  let st1 := { st with
    connections := mapDelete st.connections conn.deviceId,
    screenIntervals := st.screenIntervals.filter (fun d => ¬ d = conn.deviceId),
    store := { st.store with
      devices := updateDevice st.store.devices conn.deviceId
        (fun d => { d with isConnected := false }),
      sessions := endActiveSessions st.store.sessions conn.deviceId,
      logs := st.store.logs ++ [{ deviceId := conn.deviceId, kind := "connection" }] } }
  if st1.dmAttached then unregisterDevice st1 conn.deviceId else st1

/-- One entry of the sweep loop inside `startHeartbeatCheck` (lines
55-61): destroy the socket and run the disconnection teardown when the
connection's last activity is more than 30000 ms old. -/
def sweepStep (now : Nat) (acc : SystemState) (e : String × Nat) : SystemState :=
  match tableGet acc.connTable e.2 with
  | none => acc
  | some conn =>
    if 30000 < now - conn.lastHeartbeat then
      handleDisconnection (destroySock acc e.2) conn
    else acc

/-- One tick of the interval installed by `TCPServer.startHeartbeatCheck`
(lines 50-63): `this.connections.forEach(...)` over the entries present
when the tick starts (the teardown deletes only the entry being visited,
which JavaScript `Map` iteration tolerates). -/
def heartbeatSweep (st : SystemState) (now : Nat) : SystemState :=
  st.connections.foldl (sweepStep now) st

/-- `TCPServer.sendCommandToDevice` (lines 246-268): look up the bound
connection; absent or unauthenticated yields `false` with no write;
otherwise the framed message is written to that connection's socket.  All
in-repository callers pass an object that already has a `type` field, so
the command is forwarded as is (the wrapping branch for untyped payloads
is not exercised). -/
def sendCommandToDevice (st : SystemState) (did : String) (cmd : TCPMessage) :
    SystemState × Bool :=
  match mapGet st.connections did with
  | none => (st, false)
  | some ref =>
    match tableGet st.connTable ref with
    | none => (st, false)
    | some conn =>
      if conn.isAuthenticated then (writeSock st ref cmd, true)
      else (st, false)

/-- `DeviceManager.sendCommand` (lines 460-482): requires the manager's
own device entry to exist and be connected, then delegates to
`TCPServer.sendCommandToDevice`. -/
def dmSendCommand (st : SystemState) (did : String) (commandType : String)
    (commandData : MsgData) (now : Nat) : SystemState × Bool :=
  match st.dmDevices.find? (fun d => d.id = did) with
  | some dev =>
    if dev.isConnected then
      sendCommandToDevice st did
        { type := commandType, data := commandData, timestamp := now }
    else (st, false)
  | none => (st, false)

/-- `DeviceManager.sendTouchEvent`: route a touch command and append an
activity-log row only when routing succeeded. -/
def sendTouchEvent (st : SystemState) (did : String) (x y : Int) (now : Nat) :
    SystemState × Bool :=
  let r := dmSendCommand st did "touch" (.touch x y "tap") now
  if r.2 then
    ({ r.1 with store := { r.1.store with
        logs := r.1.store.logs ++ [{ deviceId := did, kind := "touch" }] } }, true)
  else r

/-- Registry binding observable: the socket id bound to a device id. -/
def regGet (st : SystemState) (did : String) : Option Nat := mapGet st.connections did

/-- Socket observable: whether the socket with this id has been destroyed. -/
def sockDestroyed (st : SystemState) (ref : Nat) : Option Bool :=
  (getSock st ref).map (fun s => s.destroyed)

/-- Socket observable: whether the server has half-closed this socket. -/
def sockEnded (st : SystemState) (ref : Nat) : Option Bool :=
  (getSock st ref).map (fun s => s.endedW)

/-- Device-record observable: the `isConnected` flag of the device row. -/
def devConnected (st : SystemState) (did : String) : Option Bool :=
  (st.store.devices.find? (fun d => d.id = did)).map (fun d => d.isConnected)

/-- Well-formedness of the server state, maintained by the server loop:
registry keys and socket references are duplicate-free, and every entry
references a connection object for exactly that device and socket. -/
structure WF (st : SystemState) : Prop where
  keysNodup : (st.connections.map Prod.fst).Nodup
  refsNodup : (st.connections.map Prod.snd).Nodup
  consistent : ∀ p ∈ st.connections, ∃ dc,
    tableGet st.connTable p.2 = some dc ∧ dc.deviceId = p.1 ∧ dc.sockId = p.2

/-- The records the line loop extracts from a list of split lines: each
line trimmed, empty lines skipped, order preserved. -/
def recordsOfLines (ls : List Str) : List Str :=
  (ls.map trim).filter (fun t => ¬ t = [])

/-- Concatenation of a sequence of data chunks. -/
def concatChunks : List Str → Str
  | [] => []
  | ch :: rest => ch ++ concatChunks rest

/-- A sequence of newline-terminated records on the wire. -/
def joinNl : List Str → Str
  | [] => []
  | r :: rs => r ++ '\n' :: joinNl rs

/-- The state change a connection may make while it stays unauthenticated
and unclosed: everything is preserved except frames written to sockets
(error notifications); in particular no socket is destroyed or ended, and
the registry, connection table, storage and manager state are untouched. -/
def framesOnly (st st' : SystemState) : Prop :=
  st'.connections = st.connections ∧
  st'.connTable = st.connTable ∧
  st'.screenIntervals = st.screenIntervals ∧
  st'.store = st.store ∧
  st'.dmAttached = st.dmAttached ∧
  st'.dmDevices = st.dmDevices ∧
  st'.wsClients = st.wsClients ∧
  (∀ ref, sockDestroyed st' ref = sockDestroyed st ref ∧
          sockEnded st' ref = sockEnded st ref)

/-!
Concrete fixtures: explicit states, records and parse functions used to
evaluate the definitions on closed inputs.  Each parse function is an
instance of the external `JSON.parse`, agreeing with it on the record
strings it is applied to (a well-formed JSON object yields its fields,
anything else throws, i.e. yields `none`; a parsed object without a
`type` property is represented with the empty type string).
-/

/-- A registered device row used by the supersede scenario. -/
def demoDevice : Device :=
  { id := "dev-0", name := "Pixel", androidVersion := "13", deviceModel := "Pixel 7",
    packageName := "com.smartcontrol.client", batteryLevel := 50, isConnected := true,
    screenWidth := 1080, screenHeight := 1920 }

/-- The bound connection object of the first (older) connection. -/
def demoConn1 : DeviceConnection :=
  { sockId := 1, deviceId := "dev-0", isAuthenticated := true, lastHeartbeat := 1000 }

/-- Server state with device `dev-0` bound to socket 1 and a fresh
socket 2 accepted but not yet authenticated. -/
def stSupersede : SystemState :=
  { connections := [("dev-0", 1)], connTable := [demoConn1],
    screenIntervals := [],
    sockets := [{ sockId := 1 }, { sockId := 2 }],
    store := { devices := [demoDevice],
               sessions := [{ sid := 0, deviceId := "dev-0", isActive := true }],
               logs := [{ deviceId := "dev-0", kind := "connection" }],
               nextDid := 1, nextSid := 1 },
    dmAttached := true, dmDevices := [], wsClients := [] }

/-- The identity record the second connection sends. -/
def infoRecord : Str :=
  "\x7b\"type\":\"device_info\",\"data\":\x7b\"packageName\":\"com.smartcontrol.client\"\x7d,\"timestamp\":2000\x7d".toList

/-- A well-formed heartbeat record. -/
def hbRecord : Str :=
  "\x7b\"type\":\"heartbeat\",\"timestamp\":2500\x7d".toList

/-- `JSON.parse` on the records of the supersede scenario. -/
def parseDemo (s : Str) : Option TCPMessage :=
  if s = infoRecord then
    some { type := "device_info",
           data := .info { packageName := some "com.smartcontrol.client" },
           timestamp := 2000 }
  else if s = hbRecord then
    some { type := "heartbeat", timestamp := 2500 }
  else none

/-- The closure state of the second connection before its first frame. -/
def connLocal2 : ConnLocal := { sockId := 2 }

/-- The closure state of the first connection after it authenticated. -/
def connLocal1 : ConnLocal := { sockId := 1, authed := true }

/-- State of the supersede scenario after socket 2 authenticates with the
same device identity. -/
def stAfterSupersede : SystemState :=
  (handleData parseDemo 2000 stSupersede connLocal2 (infoRecord ++ ['\n'])).1

/-- A single valid JSON record that contains the characters `GET ` right
where a chunk boundary is placed in the split-chunk scenario. -/
def getRecord : Str := "\x7b\"a\":\"GET x\"\x7d".toList

/-- First half of `getRecord` (up to just before `GET `). -/
def getChunkA : Str := "\x7b\"a\":\"".toList

/-- Second half of `getRecord` plus the newline delimiter. -/
def getChunkB : Str := "GET x\"\x7d\n".toList

/-- `JSON.parse` on the split-chunk scenario: `getRecord` is a well-formed
object (with no `type` property), everything else throws. -/
def parseGetDemo (s : Str) : Option TCPMessage :=
  if s = getRecord then some { type := "", timestamp := 0 } else none

/-- A fresh unauthenticated connection on socket 5. -/
def stReader : SystemState := { sockets := [{ sockId := 5 }] }

/-- Closure state for socket 5. -/
def connLocal5 : ConnLocal := { sockId := 5 }

/-- A parse function for streams of unparsable records: everything
throws. -/
def parseNone (_ : Str) : Option TCPMessage := none

/-- A chunk holding one record that fails JSON parsing. -/
def badChunk : Str := "bad\n".toList

/-- A chunk holding one valid heartbeat record. -/
def hbChunk : Str := hbRecord ++ ['\n']

/-- A chunk that carries an HTTP request line as a record, preceded by a
newline so the chunk itself does not start with an HTTP verb. -/
def sneakHttpChunk : Str := "\nGET / HTTP/1.1\n".toList

/-- A stale connection object for the unbind race: socket 1 bound
`dev-0` earlier, but the registry now points at socket 2. -/
def staleConn : DeviceConnection :=
  { sockId := 1, deviceId := "dev-0", isAuthenticated := true, lastHeartbeat := 1000 }

/-- The newer bound connection object on socket 2. -/
def newerConn : DeviceConnection :=
  { sockId := 2, deviceId := "dev-0", isAuthenticated := true, lastHeartbeat := 2000 }

/-- Registry state where `dev-0` is bound to the newer socket 2 while the
stale socket 1 connection is being torn down. -/
def stStale : SystemState :=
  { connections := [("dev-0", 2)], connTable := [staleConn, newerConn],
    screenIntervals := ["dev-0"],
    sockets := [{ sockId := 1 }, { sockId := 2 }],
    store := { devices := [demoDevice],
               sessions := [{ sid := 0, deviceId := "dev-0", isActive := true }],
               logs := [], nextDid := 1, nextSid := 1 },
    dmAttached := true, dmDevices := [], wsClients := [] }

/-- Routing fixture: `dev-0` bound to a live authenticated connection on
socket 2, known to the `DeviceManager` as connected. -/
def stRoute : SystemState :=
  { connections := [("dev-0", 2)], connTable := [newerConn],
    screenIntervals := [],
    sockets := [{ sockId := 2 }],
    store := {}, dmAttached := true,
    dmDevices := [{ id := "dev-0", isConnected := true }], wsClients := [] }

/-- Routing fixture reflecting the only reachable wired state: `dev-0`
bound to a live session, but the manager's own device map empty (its
registration listener always faults before populating it). -/
def stRouteDmEmpty : SystemState :=
  { connections := [("dev-0", 2)], connTable := [newerConn],
    screenIntervals := [],
    sockets := [{ sockId := 2 }],
    store := {}, dmAttached := true, dmDevices := [], wsClients := [] }

/-- A command frame used by the routing scenarios. -/
def demoCmd : TCPMessage := { type := "touch", data := .touch 10 20 "tap", timestamp := 3000 }

/-- Observer fixture: three open observers, the middle one failing. -/
def wsA : WS := { wsId := 1, readyOpen := true, sendFails := false }

/-- The failing observer. -/
def wsB : WS := { wsId := 2, readyOpen := true, sendFails := true }

/-- The observer after the failing one. -/
def wsC : WS := { wsId := 3, readyOpen := true, sendFails := false }

/-- Sweep fixture: two bound sessions, one stale and one fresh at
`now = 40000` (the stale one last heard from at time 0, the fresh one at
time 35000). -/
def stSweep : SystemState :=
  { connections := [("dev-0", 1), ("dev-1", 2)],
    connTable := [{ sockId := 1, deviceId := "dev-0", isAuthenticated := true,
                    lastHeartbeat := 0 },
                  { sockId := 2, deviceId := "dev-1", isAuthenticated := true,
                    lastHeartbeat := 35000 }],
    screenIntervals := ["dev-0", "dev-1"],
    sockets := [{ sockId := 1 }, { sockId := 2 }],
    store := { devices := [demoDevice,
                 { id := "dev-1", name := "Tab", androidVersion := "12",
                   deviceModel := "Tab", packageName := "com.other",
                   batteryLevel := 30, isConnected := true,
                   screenWidth := 800, screenHeight := 1280 }],
               sessions := [{ sid := 0, deviceId := "dev-0", isActive := true },
                            { sid := 1, deviceId := "dev-1", isActive := true }],
               logs := [], nextDid := 2, nextSid := 2 },
    dmAttached := true, dmDevices := [], wsClients := [] }

end PhoneCommander

namespace PhoneCommander

theorem splitNl_ne_nil (s : Str) : splitNl s ≠ [] := by
  cases s with
  | nil => simp [splitNl]
  | cons c cs =>
    simp only [splitNl]
    cases h : splitNl cs with
    | nil => simp
    | cons l ls =>
      by_cases hc : c = '\n' <;> simp [hc]

theorem consHead_ne_nil (x : Str) (L : List Str) : consHead x L ≠ [] := by
  cases L <;> simp [consHead]

theorem consHead_nil_of_ne (L : List Str) (h : L ≠ []) : consHead ([] : Str) L = L := by
  cases L with
  | nil => exact absurd rfl h
  | cons l ls => simp [consHead]

theorem consHead_consHead (x y : Str) (L : List Str) :
    consHead x (consHead y L) = consHead (x ++ y) L := by
  cases L <;> simp [consHead]

theorem splitNl_cons_nl (cs : Str) : splitNl ('\n' :: cs) = [] :: splitNl cs := by
  simp only [splitNl]
  cases h : splitNl cs with
  | nil => exact absurd h (splitNl_ne_nil cs)
  | cons l ls => simp

theorem splitNl_cons_ne (c : Char) (cs : Str) (hc : ¬ c = '\n') :
    splitNl (c :: cs) = consHead [c] (splitNl cs) := by
  simp only [splitNl]
  cases h : splitNl cs with
  | nil => exact absurd h (splitNl_ne_nil cs)
  | cons l ls => simp [hc, consHead]

theorem lastPart_def (s : Str) : lastPart s = (splitNl s).getLastD [] := rfl

theorem completeLines_def (s : Str) : completeLines s = (splitNl s).dropLast := rfl

theorem getLastD_nil {α : Type} (d : α) : ([] : List α).getLastD d = d := rfl

theorem getLastD_singleton {α : Type} (x d : α) : [x].getLastD d = x := rfl

theorem getLastD_irrel {α : Type} (l : List α) (h : l ≠ []) (d d' : α) :
    l.getLastD d = l.getLastD d' := by
  cases l with
  | nil => exact absurd rfl h
  | cons a as =>
    simp [List.getLastD_cons]
    induction as generalizing a with
    | nil => simp
    | cons b bs ih => simp [List.getLastD_cons, ih]

/-- Splitting an appended string: the segments of `a ++ b` are the complete
segments of `a` followed by the segments of `b` with the dangling last
segment of `a` glued onto the first segment of `b`. -/
theorem splitNl_append (a b : Str) :
    splitNl (a ++ b) =
      (splitNl a).dropLast ++ consHead ((splitNl a).getLastD []) (splitNl b) := by
  induction a with
  | nil =>
    simp only [List.nil_append, splitNl, List.dropLast_single, getLastD_singleton]
    rw [consHead_nil_of_ne _ (splitNl_ne_nil b)]
  | cons c a ih =>
    by_cases hc : c = '\n'
    · subst hc
      rw [List.cons_append, splitNl_cons_nl, splitNl_cons_nl, ih]
      cases h : splitNl a with
      | nil => exact absurd h (splitNl_ne_nil a)
      | cons x xs =>
        rw [List.dropLast_cons_of_ne_nil (by simp : (x :: xs : List Str) ≠ [])]
        simp [List.getLastD_cons]
    · rw [List.cons_append, splitNl_cons_ne c _ hc, splitNl_cons_ne c _ hc, ih]
      cases h : splitNl a with
      | nil => exact absurd h (splitNl_ne_nil a)
      | cons x xs =>
        cases xs with
        | nil =>
          show consHead [c] ([] ++ consHead ([x].getLastD []) (splitNl b)) = _
          rw [getLastD_singleton, List.nil_append, consHead_consHead]
          show _ = ([([c] ++ x)] : List Str).dropLast ++
            consHead ([([c] ++ x)].getLastD []) (splitNl b)
          rw [getLastD_singleton, List.dropLast_single, List.nil_append]
        | cons y ys =>
          show consHead [c] ((x :: y :: ys).dropLast ++
              consHead ((x :: y :: ys).getLastD []) (splitNl b)) =
            (([c] ++ x) :: y :: ys).dropLast ++
              consHead ((([c] ++ x) :: y :: ys).getLastD []) (splitNl b)
          rw [List.dropLast_cons_of_ne_nil (by simp : (y :: ys : List Str) ≠ []),
            List.dropLast_cons_of_ne_nil (by simp : (y :: ys : List Str) ≠ [])]
          simp only [List.getLastD_cons, List.cons_append]
          simp [consHead]

theorem nl_not_mem_splitNl (s : Str) : ∀ t ∈ splitNl s, '\n' ∉ t := by
  induction s with
  | nil => intro t ht; simp [splitNl] at ht; simp [ht]
  | cons c cs ih =>
    intro t ht
    by_cases hc : c = '\n'
    · subst hc
      rw [splitNl_cons_nl] at ht
      rcases List.mem_cons.mp ht with h | h
      · simp [h]
      · exact ih t h
    · rw [splitNl_cons_ne c cs hc] at ht
      obtain ⟨l, ls, h⟩ : ∃ l ls, splitNl cs = l :: ls := by
        cases h : splitNl cs with
        | nil => exact absurd h (splitNl_ne_nil cs)
        | cons l ls => exact ⟨l, ls, rfl⟩
      rw [h] at ht
      simp only [consHead] at ht
      rcases List.mem_cons.mp ht with h' | h'
      · subst h'
        intro hmem
        rcases List.mem_append.mp hmem with h2 | h2
        · exact hc (List.mem_singleton.mp h2).symm
        · exact ih l (h ▸ List.mem_cons_self l ls) h2
      · exact ih t (h ▸ List.mem_cons_of_mem l h')

theorem splitNl_of_no_nl (s : Str) (h : '\n' ∉ s) : splitNl s = [s] := by
  induction s with
  | nil => simp [splitNl]
  | cons c cs ih =>
    have hc : ¬ c = '\n' := fun he => h (he ▸ List.mem_cons_self c cs)
    rw [splitNl_cons_ne c cs hc, ih (fun hm => h (List.mem_cons_of_mem c hm))]
    simp [consHead]

theorem getLastD_mem {α : Type} : ∀ (l : List α), l ≠ [] → ∀ d : α, l.getLastD d ∈ l := by
  intro l
  induction l with
  | nil => intro h; exact absurd rfl h
  | cons a as ih =>
    intro _ d
    rw [List.getLastD_cons]
    cases as with
    | nil => simp
    | cons b bs => exact List.mem_cons_of_mem a (ih (by simp) a)

theorem nl_not_mem_lastPart (s : Str) : '\n' ∉ lastPart s :=
  nl_not_mem_splitNl s _ (getLastD_mem _ (splitNl_ne_nil s) _)

theorem dropLast_append_of_ne_nil {α : Type} (p q : List α) (h : q ≠ []) :
    (p ++ q).dropLast = p ++ q.dropLast := by
  induction p with
  | nil => simp
  | cons a as ih =>
    rw [List.cons_append, List.dropLast_cons_of_ne_nil (by simp [h] : as ++ q ≠ [])]
    rw [ih]
    simp

theorem getLastD_append_of_ne_nil {α : Type} (p q : List α) (h : q ≠ []) (d : α) :
    (p ++ q).getLastD d = q.getLastD d := by
  induction p with
  | nil => simp
  | cons a as ih =>
    rw [List.cons_append, List.getLastD_cons,
      getLastD_irrel (as ++ q) (by simp [h]) a d, ih]

theorem splitNl_lastPart_append (a b : Str) :
    splitNl (lastPart a ++ b) = consHead (lastPart a) (splitNl b) := by
  rw [splitNl_append, splitNl_of_no_nl (lastPart a) (nl_not_mem_lastPart a),
    List.dropLast_single, getLastD_singleton, List.nil_append]

/-- Chunk-accumulation law for the complete lines of the buffer. -/
theorem completeLines_append (a b : Str) :
    completeLines (a ++ b) = completeLines a ++ completeLines (lastPart a ++ b) := by
  rw [completeLines_def, completeLines_def, completeLines_def, splitNl_lastPart_append,
    splitNl_append, ← lastPart_def,
    dropLast_append_of_ne_nil _ _ (consHead_ne_nil _ _)]

/-- Chunk-accumulation law for the retained trailing bytes. -/
theorem lastPart_append (a b : Str) :
    lastPart (a ++ b) = lastPart (lastPart a ++ b) := by
  conv_lhs => rw [lastPart_def, splitNl_append, ← lastPart_def]
  rw [getLastD_append_of_ne_nil _ _ (consHead_ne_nil _ _)]
  conv_rhs => rw [lastPart_def, splitNl_lastPart_append]

end PhoneCommander


namespace PhoneCommander

/-! Basic lemmas about the registry map and the socket table. -/

theorem mapGet_cons (p : String × Nat) (ps : List (String × Nat)) (k : String) :
    mapGet (p :: ps) k = if p.1 = k then some p.2 else mapGet ps k := by
  by_cases h : p.1 = k <;> simp [mapGet, List.find?, h]

theorem mapDelete_cons (p : String × Nat) (ps : List (String × Nat)) (k : String) :
    mapDelete (p :: ps) k = if p.1 = k then mapDelete ps k else p :: mapDelete ps k := by
  by_cases h : p.1 = k <;> simp [mapDelete, List.filter_cons, h]

theorem mapGet_mapDelete_self (m : List (String × Nat)) (k : String) :
    mapGet (mapDelete m k) k = none := by
  induction m with
  | nil => rfl
  | cons p ps ih =>
    rw [mapDelete_cons]
    by_cases h : p.1 = k
    · rw [if_pos h]; exact ih
    · rw [if_neg h, mapGet_cons, if_neg h]; exact ih

theorem mapGet_mapDelete_ne (m : List (String × Nat)) (k k' : String) (h : ¬ k' = k) :
    mapGet (mapDelete m k) k' = mapGet m k' := by
  induction m with
  | nil => rfl
  | cons p ps ih =>
    rw [mapDelete_cons, mapGet_cons]
    by_cases hp : p.1 = k
    · rw [if_pos hp]
      have : ¬ p.1 = k' := by rw [hp]; intro he; exact h he.symm
      rw [if_neg this]; exact ih
    · rw [if_neg hp, mapGet_cons]
      by_cases hp' : p.1 = k'
      · rw [if_pos hp', if_pos hp']
      · rw [if_neg hp', if_neg hp']; exact ih

theorem mapGet_mapSet_self (m : List (String × Nat)) (k : String) (v : Nat) :
    mapGet (mapSet m k v) k = some v := by
  unfold mapSet
  by_cases h : m.any (fun p => p.1 = k)
  · rw [if_pos h]
    induction m with
    | nil => simp at h
    | cons p ps ih =>
      rw [List.map_cons, mapGet_cons]
      by_cases hp : p.1 = k
      · rw [if_pos hp]; simp
      · rw [if_neg hp]
        simp only [if_neg hp]
        have hps : ps.any (fun p => p.1 = k) := by
          rcases List.any_eq_true.mp h with ⟨q, hq, hqk⟩
          rcases List.mem_cons.mp hq with rfl | hq'
          · exact absurd (by simpa using hqk) hp
          · exact List.any_eq_true.mpr ⟨q, hq', hqk⟩
        exact ih hps
  · rw [if_neg h]
    induction m with
    | nil => simp [mapGet, List.find?]
    | cons p ps ih =>
      have hp : ¬ p.1 = k := by
        intro he
        exact h (List.any_eq_true.mpr ⟨p, List.mem_cons_self p ps, by simpa using he⟩)
      have hps : ¬ ps.any (fun p => p.1 = k) = true := by
        intro he
        rcases List.any_eq_true.mp he with ⟨q, hq, hqk⟩
        exact h (List.any_eq_true.mpr ⟨q, List.mem_cons_of_mem p hq, hqk⟩)
      rw [List.cons_append, mapGet_cons, if_neg hp]
      exact ih hps

theorem mapSet_keys_of_any (m : List (String × Nat)) (k : String) (v : Nat)
    (h : m.any (fun p => p.1 = k) = true) :
    (mapSet m k v).map Prod.fst = m.map Prod.fst := by
  unfold mapSet
  rw [if_pos h]
  clear h
  induction m with
  | nil => rfl
  | cons p ps ih =>
    rw [List.map_cons, List.map_cons, List.map_cons]
    by_cases hp : p.1 = k
    · rw [if_pos hp]
      exact congrArg₂ _ (by simp [hp]) (by simpa using ih)
    · rw [if_neg hp]
      exact congrArg _ (by simpa using ih)

theorem find_sock_map (g : Sock → Sock) (hid : ∀ s, (g s).sockId = s.sockId)
    (l : List Sock) (r : Nat) :
    (l.map g).find? (fun s => s.sockId = r) = (l.find? (fun s => s.sockId = r)).map g := by
  induction l with
  | nil => rfl
  | cons s ss ih =>
    by_cases hr : s.sockId = r
    · simp [List.find?, hid, hr]
    · simp [List.find?, hid, hr, ih]

theorem writeSock_sockId (ref : Nat) (m : TCPMessage) (s : Sock) :
    ((fun s => if s.sockId = ref then
        (if s.destroyed then s else { s with writes := s.writes ++ [m] })
      else s) s).sockId = s.sockId := by
  by_cases h1 : s.sockId = ref <;> by_cases h2 : s.destroyed <;> simp [h1, h2]

theorem sockDestroyed_writeSock (st : SystemState) (ref : Nat) (m : TCPMessage) (r : Nat) :
    sockDestroyed (writeSock st ref m) r = sockDestroyed st r := by
  unfold sockDestroyed getSock writeSock
  rw [find_sock_map _ (writeSock_sockId ref m)]
  cases h : st.sockets.find? (fun s => s.sockId = r) with
  | none => rfl
  | some s => by_cases h1 : s.sockId = ref <;> by_cases h2 : s.destroyed <;> simp [h1, h2]

theorem sockEnded_writeSock (st : SystemState) (ref : Nat) (m : TCPMessage) (r : Nat) :
    sockEnded (writeSock st ref m) r = sockEnded st r := by
  unfold sockEnded getSock writeSock
  rw [find_sock_map _ (writeSock_sockId ref m)]
  cases h : st.sockets.find? (fun s => s.sockId = r) with
  | none => rfl
  | some s => by_cases h1 : s.sockId = ref <;> by_cases h2 : s.destroyed <;> simp [h1, h2]

theorem getSock_writeSock_other (st : SystemState) (ref : Nat) (m : TCPMessage) (r : Nat)
    (h : ¬ r = ref) :
    getSock (writeSock st ref m) r = getSock st r := by
  unfold getSock writeSock
  rw [find_sock_map _ (writeSock_sockId ref m)]
  cases hf : st.sockets.find? (fun s => s.sockId = r) with
  | none => rfl
  | some s =>
    have hs : s.sockId = r := by simpa using List.find?_some hf
    have hne : ¬ s.sockId = ref := by rw [hs]; exact h
    simp [hne]

end PhoneCommander

namespace PhoneCommander

/-! Preservation facts for the manager-side disconnect listener. -/

theorem unregisterDevice_core (st : SystemState) (did : String) :
    (unregisterDevice st did).connections = st.connections ∧
    (unregisterDevice st did).connTable = st.connTable ∧
    (unregisterDevice st did).screenIntervals = st.screenIntervals ∧
    (unregisterDevice st did).sockets = st.sockets ∧
    (unregisterDevice st did).store = st.store := by
  unfold unregisterDevice broadcastDevicesList
  cases h : st.dmDevices.find? (fun d => d.id = did) <;> simp

theorem handleDisconnection_connections (st : SystemState) (conn : DeviceConnection) :
    (handleDisconnection st conn).connections = mapDelete st.connections conn.deviceId := by
  unfold handleDisconnection
  by_cases h : st.dmAttached
  · rw [if_pos h, (unregisterDevice_core _ _).1]
  · rw [if_neg h]

theorem handleDisconnection_store (st : SystemState) (conn : DeviceConnection) :
    (handleDisconnection st conn).store = { st.store with
      devices := updateDevice st.store.devices conn.deviceId
        (fun d => { d with isConnected := false }),
      sessions := endActiveSessions st.store.sessions conn.deviceId,
      logs := st.store.logs ++ [{ deviceId := conn.deviceId, kind := "connection" }] } := by
  unfold handleDisconnection
  by_cases h : st.dmAttached
  · rw [if_pos h, (unregisterDevice_core _ _).2.2.2.2]
  · rw [if_neg h]

theorem handleDisconnection_sockets (st : SystemState) (conn : DeviceConnection) :
    (handleDisconnection st conn).sockets = st.sockets := by
  unfold handleDisconnection
  by_cases h : st.dmAttached
  · rw [if_pos h, (unregisterDevice_core _ _).2.2.2.1]
  · rw [if_neg h]

theorem handleDisconnection_connTable (st : SystemState) (conn : DeviceConnection) :
    (handleDisconnection st conn).connTable = st.connTable := by
  unfold handleDisconnection
  by_cases h : st.dmAttached
  · rw [if_pos h, (unregisterDevice_core _ _).2.1]
  · rw [if_neg h]

/-- C4 (amended): the disconnection teardown is not guarded by a session
match: it always removes the registry binding of the connection's device
id (whatever socket that binding currently references), marks the device
row disconnected, and ends the device's active sessions. -/
theorem c4_teardown_unconditional (st : SystemState) (conn : DeviceConnection) :
    regGet (handleDisconnection st conn) conn.deviceId = none ∧
    (∀ d ∈ (handleDisconnection st conn).store.devices,
       d.id = conn.deviceId → d.isConnected = false) ∧
    (∀ s ∈ (handleDisconnection st conn).store.sessions,
       s.deviceId = conn.deviceId → s.isActive = false) := by
  refine ⟨?_, ?_, ?_⟩
  · unfold regGet
    rw [handleDisconnection_connections]
    exact mapGet_mapDelete_self _ _
  · intro d hd hid
    rw [handleDisconnection_store] at hd
    simp only [updateDevice, List.mem_map] at hd
    rcases hd with ⟨d0, _, hd0⟩
    by_cases h0 : d0.id = conn.deviceId
    · rw [if_pos h0] at hd0
      rw [← hd0]
    · rw [if_neg h0] at hd0
      exact absurd (hd0 ▸ hid) h0
  · intro s hs hid
    rw [handleDisconnection_store] at hs
    simp only [endActiveSessions, List.mem_map] at hs
    rcases hs with ⟨s0, _, hs0⟩
    by_cases h0 : s0.deviceId = conn.deviceId ∧ s0.isActive
    · rw [if_pos h0] at hs0
      rw [← hs0]
    · rw [if_neg h0] at hs0
      rw [← hs0] at hid
      rw [← hs0]
      rcases Bool.eq_false_or_eq_true s0.isActive with hb | hb
      · exact absurd ⟨hid, by simp [hb]⟩ h0
      · exact hb

/-- C4 counterexample: with `dev-0` bound to socket 2, tearing down the
stale socket-1 session (which no longer matches the binding) removes the
newer binding: the registry is not left unchanged. -/
theorem c4_stale_teardown_removes_newer_binding :
    regGet stStale "dev-0" = some 2 ∧
    staleConn.deviceId = "dev-0" ∧
    ¬ staleConn.sockId = 2 ∧
    (handleDisconnection stStale staleConn).connections = [] ∧
    ¬ (handleDisconnection stStale staleConn).connections = stStale.connections := by
  refine ⟨rfl, rfl, by decide, rfl, by decide⟩

/-- C9: broadcast isolation of the observer fan-out.  Every open observer
whose write does not fail receives the event (independently of failures
elsewhere in the set); an open observer whose write fails is removed from
the set, and neither this broadcast's result set nor any later broadcast
delivers to it again. -/
theorem c9_broadcast_isolation (cs : List WS) (msg : String) (w : WS)
    (hw : w ∈ cs) (hopen : w.readyOpen = true) :
    (w.sendFails = false →
       { w with received := w.received ++ [msg] } ∈ broadcastToWebClients cs msg) ∧
    (w.sendFails = true → (cs.map (fun x => x.wsId)).Nodup →
       (∀ w' ∈ broadcastToWebClients cs msg, ¬ w'.wsId = w.wsId) ∧
       (∀ msg2, ∀ w'' ∈ broadcastToWebClients (broadcastToWebClients cs msg) msg2,
          ¬ w''.wsId = w.wsId)) := by
  have hid : ∀ (msg' : String) (b a : WS), broadcastStep msg' b = some a →
      a.wsId = b.wsId := by
    intro msg' b a hb
    unfold broadcastStep at hb
    by_cases h1 : b.readyOpen
    · by_cases h2 : b.sendFails
      · rw [if_pos h1, if_pos h2] at hb; exact absurd hb (by simp)
      · rw [if_pos h1, if_neg h2] at hb
        cases hb; rfl
    · rw [if_neg h1] at hb
      cases hb; rfl
  constructor
  · intro hok
    exact List.mem_filterMap.mpr ⟨w, hw, by simp [broadcastStep, hopen, hok]⟩
  · intro hfail hnd
    have hmain : ∀ w' ∈ broadcastToWebClients cs msg, ¬ w'.wsId = w.wsId := by
      intro w' hw' heq
      rcases List.mem_filterMap.mp hw' with ⟨b, hb, hfb⟩
      have hbid : w'.wsId = b.wsId := hid msg b w' hfb
      have hbw : b = w := by
        have := List.inj_on_of_nodup_map hnd
        exact this hb hw (by rw [← hbid, heq])
      subst hbw
      unfold broadcastStep at hfb
      rw [if_pos hopen, if_pos hfail] at hfb
      exact absurd hfb (by simp)
    refine ⟨hmain, ?_⟩
    intro msg2 w'' hw'' heq
    rcases List.mem_filterMap.mp hw'' with ⟨b, hb, hfb⟩
    have hbid : w''.wsId = b.wsId := hid msg2 b w'' hfb
    exact hmain b hb (by rw [← hbid, heq])

/-- C9 witness: three open observers, the middle one failing: the failing
one is removed, the other two receive the event, no later broadcast
reaches the failed one. -/
theorem c9_broadcast_isolation_witness :
    ({ wsA with received := ["ev"] } ∈ broadcastToWebClients [wsA, wsB, wsC] "ev") ∧
    (∀ w' ∈ broadcastToWebClients [wsA, wsB, wsC] "ev", ¬ w'.wsId = wsB.wsId) ∧
    (∀ w'' ∈ broadcastToWebClients (broadcastToWebClients [wsA, wsB, wsC] "ev") "ev2",
       ¬ w''.wsId = wsB.wsId) ∧
    ({ wsC with received := ["ev"] } ∈ broadcastToWebClients [wsA, wsB, wsC] "ev") := by
  have hA := c9_broadcast_isolation [wsA, wsB, wsC] "ev" wsA (by decide) (by decide)
  have hB := c9_broadcast_isolation [wsA, wsB, wsC] "ev" wsB (by decide) (by decide)
  have hC := c9_broadcast_isolation [wsA, wsB, wsC] "ev" wsC (by decide) (by decide)
  have hBf := hB.2 (by decide) (by decide)
  exact ⟨hA.1 (by decide), hBf.1, fun w'' h => hBf.2 "ev2" w'' h, hC.1 (by decide)⟩

end PhoneCommander

namespace PhoneCommander

/-- C6 (amended): command routing.  (1) With no bound session for the id,
`TCPServer.sendCommandToDevice` returns failure and changes nothing (no
socket write).  (2) With a bound authenticated session it enqueues the
framed write on that session's socket and returns success.  (3) A failed
`DeviceManager.sendCommand` leaves the state unchanged, and (4) a failed
touch routing creates no activity-log entry.  The DeviceManager layer
additionally requires its own device entry to be present and connected
(see the counterexample): success of the wired router is not implied by a
live bound session alone. -/
theorem c6_route_amended :
    (∀ (st : SystemState) (did : String) (cmd : TCPMessage),
       regGet st did = none → sendCommandToDevice st did cmd = (st, false)) ∧
    (∀ (st : SystemState) (did : String) (cmd : TCPMessage) (ref : Nat)
       (conn : DeviceConnection),
       regGet st did = some ref → tableGet st.connTable ref = some conn →
       conn.isAuthenticated = true →
       sendCommandToDevice st did cmd = (writeSock st ref cmd, true)) ∧
    (∀ (st : SystemState) (did ctype : String) (cdata : MsgData) (now : Nat),
       (dmSendCommand st did ctype cdata now).2 = false →
       (dmSendCommand st did ctype cdata now).1 = st) ∧
    (∀ (st : SystemState) (did : String) (x y : Int) (now : Nat),
       (dmSendCommand st did "touch" (.touch x y "tap") now).2 = false →
       (sendTouchEvent st did x y now).1.store.logs = st.store.logs) := by
  have hfail : ∀ (st : SystemState) (did ctype : String) (cdata : MsgData) (now : Nat),
      (dmSendCommand st did ctype cdata now).2 = false →
      (dmSendCommand st did ctype cdata now).1 = st := by
    intro st did ctype cdata now h
    unfold dmSendCommand at h ⊢
    cases hf : st.dmDevices.find? (fun d => d.id = did) with
    | none => rfl
    | some dev =>
      rw [hf] at h
      dsimp only at h ⊢
      by_cases hc : dev.isConnected
      · rw [if_pos hc] at h ⊢
        unfold sendCommandToDevice at h ⊢
        cases hm : mapGet st.connections did with
        | none => rfl
        | some ref =>
          rw [hm] at h
          dsimp only at h ⊢
          cases ht : tableGet st.connTable ref with
          | none => rfl
          | some conn =>
            rw [ht] at h
            dsimp only at h ⊢
            by_cases ha : conn.isAuthenticated
            · rw [if_pos ha] at h; exact absurd h (by simp)
            · rw [if_neg ha] at h ⊢
      · rw [if_neg hc] at h ⊢
  refine ⟨?_, ?_, hfail, ?_⟩
  · intro st did cmd h
    unfold sendCommandToDevice
    unfold regGet at h
    rw [h]
  · intro st did cmd ref conn h1 h2 h3
    unfold sendCommandToDevice
    unfold regGet at h1
    rw [h1]
    dsimp only
    rw [h2]
    dsimp only
    rw [if_pos h3]
  · intro st did x y now h
    unfold sendTouchEvent
    dsimp only
    rw [h]
    simp only [Bool.false_eq_true, if_false]
    rw [hfail st did "touch" (.touch x y "tap") now h]

/-- C6 witness: concrete routing runs.  An unbound id fails with no state
change; a bound authenticated session on socket 2 dispatches with the
frame enqueued; the manager-level failure leaves the log empty. -/
theorem c6_route_amended_witness :
    sendCommandToDevice stReader "dev-0" demoCmd = (stReader, false) ∧
    sendCommandToDevice stRouteDmEmpty "dev-0" demoCmd =
      (writeSock stRouteDmEmpty 2 demoCmd, true) ∧
    (dmSendCommand stRouteDmEmpty "dev-0" "touch" (.touch 10 20 "tap") 3000).1 =
      stRouteDmEmpty ∧
    (sendTouchEvent stRouteDmEmpty "dev-0" 10 20 3000).1.store.logs =
      stRouteDmEmpty.store.logs := by
  refine ⟨c6_route_amended.1 stReader "dev-0" demoCmd (by decide),
    c6_route_amended.2.1 stRouteDmEmpty "dev-0" demoCmd 2 newerConn
      (by decide) (by decide) (by decide),
    c6_route_amended.2.2.1 stRouteDmEmpty "dev-0" "touch" (.touch 10 20 "tap") 3000
      (by decide),
    c6_route_amended.2.2.2 stRouteDmEmpty "dev-0" 10 20 3000 (by decide)⟩

/-- C6 counterexample: a live bound authenticated session exists for
`dev-0` (socket 2, not destroyed), yet the wired command router
`DeviceManager.sendCommand` returns failure and writes nothing, because
its own device map lacks the entry (its registration listener faults
before ever populating it).  The claim's success half fails on the wired
router. -/
theorem c6_dm_router_fails_on_live_session :
    regGet stRouteDmEmpty "dev-0" = some 2 ∧
    tableGet stRouteDmEmpty.connTable 2 = some newerConn ∧
    newerConn.isAuthenticated = true ∧
    sockDestroyed stRouteDmEmpty 2 = some false ∧
    dmSendCommand stRouteDmEmpty "dev-0" "touch" (.touch 10 20 "tap") 3000 =
      (stRouteDmEmpty, false) := by
  refine ⟨rfl, rfl, rfl, rfl, rfl⟩

/-- C8 (amended): the HTTP rejection is a per-chunk prefix check.  A chunk
whose raw text starts with `GET `, `POST ` or `HTTP/` is rejected before
any record is extracted or parsed: nothing is emitted, no parse error is
raised, and the server ends the connection. -/
theorem c8_http_chunk_rejected (parse : Str → Option TCPMessage) (now : Nat)
    (st : SystemState) (c : ConnLocal) (chunk : Str)
    (hend : c.ended = false) (hhttp : isHttpChunk chunk = true) :
    handleData parse now st c chunk =
      (endSock st c.sockId, { c with ended := true }, [], false) := by
  unfold handleData
  rw [hend, hhttp]
  simp

/-- C8 witness: a chunk that is an HTTP GET request line is rejected and
the connection ended. -/
theorem c8_http_chunk_rejected_witness :
    handleData parseNone 0 stReader connLocal5 ("GET / HTTP/1.1\n".toList) =
      (endSock stReader 5, { connLocal5 with ended := true }, [], false) := by
  exact c8_http_chunk_rejected parseNone 0 stReader connLocal5
    ("GET / HTTP/1.1\n".toList) (by decide) (by decide)

/-- C8 counterexample: an HTTP request line arriving as a record that does
not begin the chunk (here the chunk starts with a newline) is not
rejected up front: the catch branch fires, i.e. the record reached
`JSON.parse` (which threw), an error notification went out, and the
connection stays open (neither ended nor destroyed). -/
theorem c8_sneaked_http_record_not_rejected :
    isHttpChunk sneakHttpChunk = false ∧
    completeLines sneakHttpChunk = [[], "GET / HTTP/1.1".toList] ∧
    (handleData parseNone 0 stReader connLocal5 sneakHttpChunk).2.2.2 = true ∧
    (handleData parseNone 0 stReader connLocal5 sneakHttpChunk).2.1.ended = false ∧
    sockEnded (handleData parseNone 0 stReader connLocal5 sneakHttpChunk).1 5 = some false ∧
    sockDestroyed (handleData parseNone 0 stReader connLocal5 sneakHttpChunk).1 5 =
      some false := by
  refine ⟨by decide, by decide, rfl, rfl, rfl, rfl⟩

end PhoneCommander

namespace PhoneCommander

/-! Preservation of socket flags through the data handler: the line loop
only ever writes frames; it never destroys or ends a socket. -/

theorem sockFlags_of_sockets_eq (st st' : SystemState) (h : st'.sockets = st.sockets)
    (r : Nat) :
    sockDestroyed st' r = sockDestroyed st r ∧ sockEnded st' r = sockEnded st r := by
  unfold sockDestroyed sockEnded getSock
  rw [h]
  exact ⟨rfl, rfl⟩

theorem authenticateDevice_flags (st : SystemState) (sid : Nat) (m : TCPMessage)
    (now r : Nat) :
    sockDestroyed (authenticateDevice st sid m now).1 r = sockDestroyed st r ∧
    sockEnded (authenticateDevice st sid m now).1 r = sockEnded st r := by
  have hw : ∀ (st' : SystemState) (mm : TCPMessage), st'.sockets = st.sockets →
      sockDestroyed (writeSock st' sid mm) r = sockDestroyed st r ∧
      sockEnded (writeSock st' sid mm) r = sockEnded st r := by
    intro st' mm hs
    rw [sockDestroyed_writeSock, sockEnded_writeSock]
    exact sockFlags_of_sockets_eq st st' hs r
  unfold authenticateDevice
  cases hd : m.data with
  | info d =>
    dsimp only
    cases hp : d.packageName with
    | some pkg =>
      dsimp only
      cases hf : st.store.devices.find? (fun d => d.packageName = pkg) with
      | none => dsimp only; exact hw _ _ rfl
      | some dev0 => dsimp only; exact hw _ _ rfl
    | none => dsimp only; exact hw _ _ rfl
  | nil => dsimp only; exact hw _ _ rfl
  | text s => dsimp only; exact hw _ _ rfl
  | touch x y a => dsimp only; exact hw _ _ rfl
  | screen q f cp => dsimp only; exact hw _ _ rfl

theorem updateDeviceScreen_sockets (st : SystemState) (did : String) :
    (updateDeviceScreen st did).sockets = st.sockets := by
  unfold updateDeviceScreen
  cases h : st.dmDevices.find? (fun d => d.id = did) <;> rfl

theorem handleMessage_sockets (st : SystemState) (dc : DeviceConnection) (now : Nat)
    (m : TCPMessage) : (handleMessage st dc now m).sockets = st.sockets := by
  unfold handleMessage
  by_cases h1 : m.type = "screen_data"
  · rw [if_pos h1]
    by_cases h2 : ({ st with connTable := touchHeartbeat st.connTable dc.sockId now }
        : SystemState).dmAttached
    · rw [if_pos h2, updateDeviceScreen_sockets]
    · rw [if_neg h2]
  · rw [if_neg h1]

/-- The line loop preserves the closure's socket, buffer and ended flag
(only `authed` may change), and never destroys or ends any socket. -/
theorem runConnLines_pres (parse : Str → Option TCPMessage) (now : Nat) :
    ∀ (ls : List Str) (st : SystemState) (c : ConnLocal),
    (runConnLines parse now st c ls).2.1.sockId = c.sockId ∧
    (runConnLines parse now st c ls).2.1.buffer = c.buffer ∧
    (runConnLines parse now st c ls).2.1.ended = c.ended ∧
    (∀ r, sockDestroyed (runConnLines parse now st c ls).1 r = sockDestroyed st r ∧
          sockEnded (runConnLines parse now st c ls).1 r = sockEnded st r) := by
  intro ls
  induction ls with
  | nil =>
    intro st c
    exact ⟨rfl, rfl, rfl, fun r => ⟨rfl, rfl⟩⟩
  | cons l ls ih =>
    intro st c
    simp only [runConnLines]
    by_cases ht : trim l = []
    · rw [if_pos ht]
      exact ih st c
    · rw [if_neg ht]
      cases hp : parse (trim l) with
      | none =>
        dsimp only
        refine ⟨rfl, rfl, rfl, fun r => ?_⟩
        rw [sockDestroyed_writeSock, sockEnded_writeSock]
        exact ⟨rfl, rfl⟩
      | some m =>
        dsimp only
        have chain : ∀ (stX st0 : SystemState) (cX : ConnLocal),
            (∀ r, sockDestroyed st0 r = sockDestroyed st r ∧
                  sockEnded st0 r = sockEnded st r) →
            stX.sockets = st0.sockets →
            ∀ r, sockDestroyed (runConnLines parse now stX cX ls).1 r
                   = sockDestroyed st r ∧
                 sockEnded (runConnLines parse now stX cX ls).1 r = sockEnded st r := by
          intro stX st0 cX h0 hs r
          rcases (ih stX cX).2.2.2 r with ⟨h1, h2⟩
          rw [h1, h2]
          rcases sockFlags_of_sockets_eq st0 stX hs r with ⟨h3, h4⟩
          rw [h3, h4]
          exact h0 r
        by_cases hinfo : m.type = "device_info" ∧ ¬ connAuthed st c = true
        · rw [if_pos hinfo]
          cases hauth : authenticateDevice st c.sockId m now with
          | mk st1 odc =>
            have hfl : ∀ r, sockDestroyed st1 r = sockDestroyed st r ∧
                sockEnded st1 r = sockEnded st r := by
              intro r
              have hh := authenticateDevice_flags st c.sockId m now r
              rw [hauth] at hh
              exact hh
            cases odc with
            | some dc =>
              dsimp only
              by_cases hdm : st1.dmAttached
              · rw [if_pos hdm]
                refine ⟨rfl, rfl, rfl, fun r => ?_⟩
                rw [sockDestroyed_writeSock, sockEnded_writeSock]
                exact hfl r
              · rw [if_neg hdm]
                exact ⟨(ih _ _).1, (ih _ _).2.1, (ih _ _).2.2.1, chain _ st1 _ hfl rfl⟩
            | none =>
              dsimp only
              exact ⟨(ih _ _).1, (ih _ _).2.1, (ih _ _).2.2.1, chain st1 st1 c hfl rfl⟩
        · rw [if_neg hinfo]
          by_cases hca : connAuthed st c = true
          · rw [if_pos hca]
            cases htg : tableGet st.connTable c.sockId with
            | none =>
              exact ih st c
            | some dc =>
              dsimp only
              exact ⟨(ih _ _).1, (ih _ _).2.1, (ih _ _).2.2.1,
                chain _ st c (fun r => ⟨rfl, rfl⟩)
                  (handleMessage_sockets st dc now m)⟩
          · rw [if_neg hca]
            exact ih st c

/-- Rewriting lemma: one data event on an open connection with a
non-HTTP-looking chunk is exactly the line loop over the buffered lines. -/
theorem handleData_run (parse : Str → Option TCPMessage) (now : Nat)
    (st : SystemState) (c : ConnLocal) (chunk : Str)
    (hend : c.ended = false) (hhttp : isHttpChunk chunk = false) :
    handleData parse now st c chunk =
      runConnLines parse now st { c with buffer := lastPart (c.buffer ++ chunk) }
        (completeLines (c.buffer ++ chunk)) := by
  unfold handleData
  rw [hend, hhttp]
  simp

/-- Feeding any number of non-HTTP-looking chunks never closes the
connection: the server neither ends nor destroys any socket, and the
closure's ended flag stays false. -/
theorem feedConn_open (parse : Str → Option TCPMessage) (now : Nat) :
    ∀ (chunks : List Str) (st : SystemState) (c : ConnLocal),
    c.ended = false → (∀ ch ∈ chunks, isHttpChunk ch = false) →
    (feedConn parse now st c chunks).2.1.ended = false ∧
    (feedConn parse now st c chunks).2.1.sockId = c.sockId ∧
    (∀ r, sockDestroyed (feedConn parse now st c chunks).1 r = sockDestroyed st r ∧
          sockEnded (feedConn parse now st c chunks).1 r = sockEnded st r) := by
  intro chunks
  induction chunks with
  | nil =>
    intro st c hend _
    exact ⟨hend, rfl, fun r => ⟨rfl, rfl⟩⟩
  | cons ch chunks ih =>
    intro st c hend hhttp
    simp only [feedConn]
    rw [handleData_run parse now st c ch hend (hhttp ch (List.mem_cons_self ch chunks))]
    have h1 := runConnLines_pres parse now (completeLines (c.buffer ++ ch)) st
      { c with buffer := lastPart (c.buffer ++ ch) }
    have hrec := ih (runConnLines parse now st
        { c with buffer := lastPart (c.buffer ++ ch) }
        (completeLines (c.buffer ++ ch))).1
      (runConnLines parse now st { c with buffer := lastPart (c.buffer ++ ch) }
        (completeLines (c.buffer ++ ch))).2.1
      (by rw [h1.2.2.1]; exact hend)
      (fun ch' hch' => hhttp ch' (List.mem_cons_of_mem ch hch'))
    refine ⟨hrec.1, by rw [hrec.2.1, h1.1], fun r => ?_⟩
    rcases hrec.2.2 r with ⟨hd', he'⟩
    rcases h1.2.2.2 r with ⟨hd'', he''⟩
    rw [hd', he', hd'', he'']
    exact ⟨rfl, rfl⟩

/-- C3 (amended): a record that fails JSON parsing is dropped together
with the remaining records of its chunk, one `error` notification is
written back to the peer, and the connection stays open; there is no
burst threshold: no number of parse failures ever makes the server end or
destroy the connection (only an HTTP-looking chunk does). -/
theorem c3_parse_failure_nonfatal :
    (∀ (parse : Str → Option TCPMessage) (now : Nat) (st : SystemState) (c : ConnLocal)
       (chunk : Str) (l : Str) (ls : List Str),
       c.ended = false → isHttpChunk chunk = false →
       completeLines (c.buffer ++ chunk) = l :: ls →
       ¬ trim l = [] → parse (trim l) = none →
       handleData parse now st c chunk =
         (writeSock st c.sockId (errMsg now),
          { c with buffer := lastPart (c.buffer ++ chunk) }, [], true)) ∧
    (∀ (parse : Str → Option TCPMessage) (now : Nat) (st : SystemState) (c : ConnLocal)
       (chunks : List Str),
       c.ended = false → (∀ ch ∈ chunks, isHttpChunk ch = false) →
       (feedConn parse now st c chunks).2.1.ended = false ∧
       (∀ r, sockDestroyed (feedConn parse now st c chunks).1 r = sockDestroyed st r ∧
             sockEnded (feedConn parse now st c chunks).1 r = sockEnded st r)) := by
  constructor
  · intro parse now st c chunk l ls hend hhttp hlines htrim hparse
    rw [handleData_run parse now st c chunk hend hhttp, hlines]
    simp only [runConnLines]
    rw [if_neg htrim, hparse]
  · intro parse now st c chunks hend hhttp
    have h := feedConn_open parse now chunks st c hend hhttp
    exact ⟨h.1, h.2.2⟩

/-- C3 witness: a chunk holding the unparsable record `bad` produces one
error notification and an open connection; two such chunks leave the
connection open with its socket intact. -/
theorem c3_parse_failure_nonfatal_witness :
    handleData parseNone 0 stReader connLocal5 badChunk =
      (writeSock stReader 5 (errMsg 0), { connLocal5 with buffer := [] }, [], true) ∧
    ((feedConn parseNone 0 stReader connLocal5 [badChunk, badChunk]).2.1.ended = false ∧
     (∀ r, sockDestroyed (feedConn parseNone 0 stReader connLocal5
             [badChunk, badChunk]).1 r = sockDestroyed stReader r ∧
           sockEnded (feedConn parseNone 0 stReader connLocal5
             [badChunk, badChunk]).1 r = sockEnded stReader r)) := by
  refine ⟨c3_parse_failure_nonfatal.1 parseNone 0 stReader connLocal5 badChunk
      ("bad".toList) [] (by decide) (by decide) (by decide) (by decide) rfl,
    c3_parse_failure_nonfatal.2 parseNone 0 stReader connLocal5 [badChunk, badChunk]
      (by decide) (by decide)⟩

/-- C3 counterexample: one hundred consecutive parse failures on one
connection: one hundred error notifications, yet the connection is still
open (not ended, not destroyed) - no burst threshold closes it, contrary
to the claim. -/
theorem c3_hundred_failures_connection_still_open :
    (feedConn parseNone 0 stReader connLocal5 (List.replicate 100 badChunk)).2.2.2 = 100 ∧
    (feedConn parseNone 0 stReader connLocal5 (List.replicate 100 badChunk)).2.1.ended
      = false ∧
    sockEnded (feedConn parseNone 0 stReader connLocal5
      (List.replicate 100 badChunk)).1 5 = some false ∧
    sockDestroyed (feedConn parseNone 0 stReader connLocal5
      (List.replicate 100 badChunk)).1 5 = some false := by
  refine ⟨rfl, rfl, rfl, rfl⟩

end PhoneCommander

namespace PhoneCommander

/-! The chunking-invariance development for the frame reader. -/

theorem splitNl_record (r s : Str) (h : '\n' ∉ r) :
    splitNl (r ++ '\n' :: s) = r :: splitNl s := by
  rw [splitNl_append, splitNl_of_no_nl r h, splitNl_cons_nl]
  simp [consHead]

theorem completeLines_joinNl (rs : List Str) (tail : Str)
    (hrs : ∀ r ∈ rs, '\n' ∉ r) (htail : '\n' ∉ tail) :
    completeLines (joinNl rs ++ tail) = rs ∧ lastPart (joinNl rs ++ tail) = tail := by
  induction rs with
  | nil =>
    rw [joinNl, List.nil_append]
    constructor
    · rw [completeLines_def, splitNl_of_no_nl tail htail, List.dropLast_single]
    · rw [lastPart_def, splitNl_of_no_nl tail htail, getLastD_singleton]
  | cons r rs ih =>
    have hr : '\n' ∉ r := hrs r (List.mem_cons_self r rs)
    have hrest := ih (fun x hx => hrs x (List.mem_cons_of_mem r hx))
    have hsplit : splitNl (joinNl (r :: rs) ++ tail) =
        r :: splitNl (joinNl rs ++ tail) := by
      rw [joinNl, List.append_assoc, List.cons_append]
      exact splitNl_record r (joinNl rs ++ tail) hr
    constructor
    · rw [completeLines_def, hsplit,
        List.dropLast_cons_of_ne_nil (splitNl_ne_nil _), ← completeLines_def]
      rw [hrest.1]
    · rw [lastPart_def, hsplit, List.getLastD_cons,
        getLastD_irrel _ (splitNl_ne_nil _) r [], ← lastPart_def]
      exact hrest.2

theorem recordsOfLines_append (l1 l2 : List Str) :
    recordsOfLines (l1 ++ l2) = recordsOfLines l1 ++ recordsOfLines l2 := by
  unfold recordsOfLines
  rw [List.map_append, List.filter_append]

theorem recordsOfLines_self (rs : List Str) (h : ∀ r ∈ rs, trim r = r ∧ ¬ r = []) :
    recordsOfLines rs = rs := by
  induction rs with
  | nil => rfl
  | cons r rs ih =>
    have hr := h r (List.mem_cons_self r rs)
    unfold recordsOfLines
    rw [List.map_cons, hr.1, List.filter_cons]
    have : (decide (¬ r = [])) = true := by simp [hr.2]
    rw [this]
    simp only [if_true]
    exact congrArg _ (ih (fun x hx => h x (List.mem_cons_of_mem r hx)))

/-- When every record of the lines parses to a non-identity frame, the
line loop dispatches exactly the trimmed non-empty lines, in order, with
no catch activation and no change to the closure state. -/
theorem runConnLines_emits (parse : Str → Option TCPMessage) (now : Nat) :
    ∀ (ls : List Str) (st : SystemState) (c : ConnLocal),
    (∀ t ∈ recordsOfLines ls, ∃ m, parse t = some m ∧ ¬ m.type = "device_info") →
    (runConnLines parse now st c ls).2.2.1 = recordsOfLines ls ∧
    (runConnLines parse now st c ls).2.2.2 = false ∧
    (runConnLines parse now st c ls).2.1 = c := by
  intro ls
  induction ls with
  | nil =>
    intro st c _
    exact ⟨rfl, rfl, rfl⟩
  | cons l ls ih =>
    intro st c hgood
    have hsplit : recordsOfLines (l :: ls) =
        (if ¬ trim l = [] then [trim l] else []) ++ recordsOfLines ls := by
      unfold recordsOfLines
      rw [List.map_cons, List.filter_cons]
      by_cases ht : trim l = []
      · simp [ht]
      · simp [ht]
    simp only [runConnLines]
    by_cases ht : trim l = []
    · have hs2 : recordsOfLines (l :: ls) = recordsOfLines ls := by
        rw [hsplit, if_neg (not_not_intro ht), List.nil_append]
      rw [if_pos ht, hs2]
      exact ih st c (hs2 ▸ hgood)
    · have hmem : trim l ∈ recordsOfLines (l :: ls) := by
        rw [hsplit, if_pos ht]
        exact List.mem_cons_self _ _
      rcases hgood (trim l) hmem with ⟨m, hm, hmtype⟩
      rw [if_neg ht, hm]
      dsimp only
      have hgood' : ∀ t ∈ recordsOfLines ls,
          ∃ m, parse t = some m ∧ ¬ m.type = "device_info" := by
        intro t htm
        exact hgood t (by rw [hsplit]; exact List.mem_append_right _ htm)
      have hnotinfo : ¬ (m.type = "device_info" ∧ ¬ connAuthed st c = true) := by
        intro hco
        exact hmtype hco.1
      rw [if_neg hnotinfo]
      by_cases hca : connAuthed st c = true
      · rw [if_pos hca]
        cases htg : tableGet st.connTable c.sockId with
        | none =>
          have hrec := ih st c hgood'
          refine ⟨?_, hrec.2.1, hrec.2.2⟩
          rw [hsplit, if_pos ht, List.singleton_append, hrec.1]
        | some dc =>
          dsimp only
          have hrec := ih (handleMessage st dc now m) c hgood'
          refine ⟨?_, hrec.2.1, hrec.2.2⟩
          rw [hsplit, if_pos ht, List.singleton_append, hrec.1]
      · rw [if_neg hca]
        have hrec := ih st c hgood'
        refine ⟨?_, hrec.2.1, hrec.2.2⟩
        rw [hsplit, if_pos ht, List.singleton_append, hrec.1]

/-- Feeding chunk by chunk emits exactly the records of the concatenated
byte stream: the frame reader is invariant under chunk boundaries, keeps
the bytes after the last newline in the buffer, and never closes the
connection - provided no chunk looks like an HTTP request line and every
record parses to a non-identity frame. -/
theorem feedConn_emits (parse : Str → Option TCPMessage) (now : Nat) :
    ∀ (chunks : List Str) (st : SystemState) (c : ConnLocal),
    c.ended = false → '\n' ∉ c.buffer →
    (∀ ch ∈ chunks, isHttpChunk ch = false) →
    (∀ t ∈ recordsOfLines (completeLines (c.buffer ++ concatChunks chunks)),
       ∃ m, parse t = some m ∧ ¬ m.type = "device_info") →
    (feedConn parse now st c chunks).2.2.1 =
      recordsOfLines (completeLines (c.buffer ++ concatChunks chunks)) ∧
    (feedConn parse now st c chunks).2.1.buffer =
      lastPart (c.buffer ++ concatChunks chunks) ∧
    (feedConn parse now st c chunks).2.1.ended = false ∧
    (feedConn parse now st c chunks).2.2.2 = 0 := by
  intro chunks
  induction chunks with
  | nil =>
    intro st c hend hbuf _ _
    refine ⟨?_, ?_, hend, rfl⟩
    · rw [concatChunks, List.append_nil, completeLines_def,
        splitNl_of_no_nl c.buffer hbuf, List.dropLast_single]
      rfl
    · rw [concatChunks, List.append_nil, lastPart_def,
        splitNl_of_no_nl c.buffer hbuf, getLastD_singleton]
      rfl
  | cons ch rest ih =>
    intro st c hend hbuf hhttp hgood
    have htot : c.buffer ++ concatChunks (ch :: rest) =
        (c.buffer ++ ch) ++ concatChunks rest := by
      rw [concatChunks, List.append_assoc]
    have hlines : completeLines (c.buffer ++ concatChunks (ch :: rest)) =
        completeLines (c.buffer ++ ch) ++
        completeLines (lastPart (c.buffer ++ ch) ++ concatChunks rest) := by
      rw [htot, completeLines_append]
    have hrecsplit :
        recordsOfLines (completeLines (c.buffer ++ concatChunks (ch :: rest))) =
        recordsOfLines (completeLines (c.buffer ++ ch)) ++
        recordsOfLines (completeLines (lastPart (c.buffer ++ ch) ++ concatChunks rest)) := by
      rw [hlines, recordsOfLines_append]
    simp only [feedConn]
    rw [handleData_run parse now st c ch hend (hhttp ch (List.mem_cons_self ch rest))]
    have hrun := runConnLines_emits parse now (completeLines (c.buffer ++ ch)) st
      { c with buffer := lastPart (c.buffer ++ ch) }
      (by
        intro t htm
        exact hgood t (by rw [hrecsplit]; exact List.mem_append_left _ htm))
    have hrec := ih (runConnLines parse now st
        { c with buffer := lastPart (c.buffer ++ ch) }
        (completeLines (c.buffer ++ ch))).1
      (runConnLines parse now st { c with buffer := lastPart (c.buffer ++ ch) }
        (completeLines (c.buffer ++ ch))).2.1
      (by rw [hrun.2.2]; exact hend)
      (by rw [hrun.2.2]; exact nl_not_mem_lastPart _)
      (fun ch' hch' => hhttp ch' (List.mem_cons_of_mem ch hch'))
      (by
        rw [hrun.2.2]
        intro t htm
        exact hgood t (by rw [hrecsplit]; exact List.mem_append_right _ htm))
    refine ⟨?_, ?_, hrec.2.2.1, ?_⟩
    · rw [hrecsplit, hrun.1, hrec.1, hrun.2.2]
    · rw [hrec.2.1, hrun.2.2]
      show lastPart (lastPart (c.buffer ++ ch) ++ concatChunks rest) = _
      rw [htot, lastPart_append (c.buffer ++ ch) (concatChunks rest)]
    · rw [hrun.2.1, hrec.2.2.2]
      simp

/-- C2 (amended): chunking-invariance of the frame reader.  For any
sequence of chunks whose concatenation is a sequence of newline-delimited
records followed by trailing partial bytes, the reader emits exactly
those records, in order, independently of chunk boundaries, and retains
the trailing bytes in the buffer - provided no chunk's raw text starts
with an HTTP verb prefix (the per-chunk HTTP check would otherwise eat a
chunk, see the counterexample) and every record parses to a non-identity
frame (a device_info record makes the wired connect listener throw, which
drops the rest of that chunk). -/
theorem c2_chunking_invariance (parse : Str → Option TCPMessage) (now : Nat)
    (st : SystemState) (c : ConnLocal) (records : List Str) (tail : Str)
    (chunks : List Str)
    (hend : c.ended = false) (hbuf : c.buffer = [])
    (hconcat : concatChunks chunks = joinNl records ++ tail)
    (hhttp : ∀ ch ∈ chunks, isHttpChunk ch = false)
    (hrec : ∀ r ∈ records, '\n' ∉ r ∧ trim r = r ∧ ¬ r = [] ∧
            ∃ m, parse r = some m ∧ ¬ m.type = "device_info")
    (htail : '\n' ∉ tail) :
    (feedConn parse now st c chunks).2.2.1 = records ∧
    (feedConn parse now st c chunks).2.1.buffer = tail ∧
    (feedConn parse now st c chunks).2.1.ended = false ∧
    (feedConn parse now st c chunks).2.2.2 = 0 := by
  have hjoin := completeLines_joinNl records tail (fun r hr => (hrec r hr).1) htail
  have hlines : completeLines (c.buffer ++ concatChunks chunks) = records := by
    rw [hbuf, List.nil_append, hconcat, hjoin.1]
  have hlast : lastPart (c.buffer ++ concatChunks chunks) = tail := by
    rw [hbuf, List.nil_append, hconcat, hjoin.2]
  have hrecs : recordsOfLines (completeLines (c.buffer ++ concatChunks chunks))
      = records := by
    rw [hlines]
    exact recordsOfLines_self records (fun r hr => ⟨(hrec r hr).2.1, (hrec r hr).2.2.1⟩)
  have h := feedConn_emits parse now chunks st c hend (by rw [hbuf]; simp) hhttp
    (by
      rw [hrecs]
      intro t htm
      exact (hrec t htm).2.2.2)
  refine ⟨?_, ?_, h.2.2.1, h.2.2.2⟩
  · rw [h.1, hrecs]
  · rw [h.2.1, hlast]

/-- C2 witness: the heartbeat record delivered split across two chunks
with trailing partial bytes `xy`: the reader emits exactly that record
and retains `xy`. -/
theorem c2_chunking_invariance_witness :
    (feedConn parseDemo 2500 stReader connLocal5
      ["\x7b\"type\":\"hea".toList,
       "rtbeat\",\"timestamp\":2500\x7d\nxy".toList]).2.2.1 = [hbRecord] ∧
    (feedConn parseDemo 2500 stReader connLocal5
      ["\x7b\"type\":\"hea".toList,
       "rtbeat\",\"timestamp\":2500\x7d\nxy".toList]).2.1.buffer = "xy".toList := by
  have h := c2_chunking_invariance parseDemo 2500 stReader connLocal5
    [hbRecord] ("xy".toList)
    ["\x7b\"type\":\"hea".toList, "rtbeat\",\"timestamp\":2500\x7d\nxy".toList]
    rfl rfl (by decide) (by decide)
    (by
      intro r hr
      rw [List.mem_singleton] at hr
      subst hr
      exact ⟨by decide, by decide, by decide,
        ⟨{ type := "heartbeat", timestamp := 2500 }, rfl, by decide⟩⟩)
    (by decide)
  exact ⟨h.1, h.2.1⟩

/-- C2 counterexample: one valid JSON record delivered whole is emitted,
but the same bytes split at a chunk boundary that makes the second chunk
start with `GET ` are not: the reader emits nothing and the connection is
ended.  Emission is not invariant under chunk boundaries. -/
theorem c2_chunk_boundary_breaks_invariance :
    getChunkA ++ getChunkB = getRecord ++ ['\n'] ∧
    trim getRecord = getRecord ∧
    (∃ m, parseGetDemo getRecord = some m) ∧
    (feedConn parseGetDemo 0 stReader connLocal5 [getChunkA ++ getChunkB]).2.2.1 =
      [getRecord] ∧
    (feedConn parseGetDemo 0 stReader connLocal5 [getChunkA, getChunkB]).2.2.1 = [] ∧
    (feedConn parseGetDemo 0 stReader connLocal5 [getChunkA, getChunkB]).2.1.ended
      = true := by
  refine ⟨by decide, by decide, ⟨{ type := "", timestamp := 0 }, rfl⟩, rfl, rfl, rfl⟩

end PhoneCommander

namespace PhoneCommander

/-! Pre-authentication behaviour: frames other than a device_info identity
frame are ignored and leave the whole system untouched except for error
notifications written back on parse failures. -/

theorem framesOnly_refl (st : SystemState) : framesOnly st st :=
  ⟨rfl, rfl, rfl, rfl, rfl, rfl, rfl, fun _ => ⟨rfl, rfl⟩⟩

theorem framesOnly_trans (s1 s2 s3 : SystemState)
    (h1 : framesOnly s1 s2) (h2 : framesOnly s2 s3) : framesOnly s1 s3 := by
  refine ⟨h2.1.trans h1.1, h2.2.1.trans h1.2.1, h2.2.2.1.trans h1.2.2.1,
    h2.2.2.2.1.trans h1.2.2.2.1, h2.2.2.2.2.1.trans h1.2.2.2.2.1,
    h2.2.2.2.2.2.1.trans h1.2.2.2.2.2.1, h2.2.2.2.2.2.2.1.trans h1.2.2.2.2.2.2.1,
    fun r => ?_⟩
  rcases h1.2.2.2.2.2.2.2 r with ⟨ha, hb⟩
  rcases h2.2.2.2.2.2.2.2 r with ⟨hc, hd⟩
  exact ⟨hc.trans ha, hd.trans hb⟩

theorem framesOnly_writeSock (st : SystemState) (ref : Nat) (m : TCPMessage) :
    framesOnly st (writeSock st ref m) := by
  refine ⟨rfl, rfl, rfl, rfl, rfl, rfl, rfl, fun r => ?_⟩
  rw [sockDestroyed_writeSock, sockEnded_writeSock]
  exact ⟨rfl, rfl⟩

theorem connAuthed_of_false (st : SystemState) (c : ConnLocal)
    (h : c.authed = false) : connAuthed st c = false := by
  unfold connAuthed
  rw [h]
  rfl

/-- The line loop of an unauthenticated connection whose records never
parse to a device_info frame changes nothing but socket write queues, and
the connection stays unauthenticated. -/
theorem runConnLines_preauth (parse : Str → Option TCPMessage) (now : Nat) :
    ∀ (ls : List Str) (st : SystemState) (c : ConnLocal),
    c.authed = false →
    (∀ t ∈ recordsOfLines ls, ∀ m, parse t = some m → ¬ m.type = "device_info") →
    framesOnly st (runConnLines parse now st c ls).1 ∧
    (runConnLines parse now st c ls).2.1 = c := by
  intro ls
  induction ls with
  | nil =>
    intro st c _ _
    exact ⟨framesOnly_refl st, rfl⟩
  | cons l ls ih =>
    intro st c hauthd hgood
    have hsplit : recordsOfLines (l :: ls) =
        (if ¬ trim l = [] then [trim l] else []) ++ recordsOfLines ls := by
      unfold recordsOfLines
      rw [List.map_cons, List.filter_cons]
      by_cases ht : trim l = []
      · simp [ht]
      · simp [ht]
    have hgood' : ∀ t ∈ recordsOfLines ls, ∀ m, parse t = some m →
        ¬ m.type = "device_info" := by
      intro t htm
      exact hgood t (by rw [hsplit]; exact List.mem_append_right _ htm)
    simp only [runConnLines]
    by_cases ht : trim l = []
    · rw [if_pos ht]
      exact ih st c hauthd hgood'
    · rw [if_neg ht]
      cases hp : parse (trim l) with
      | none =>
        exact ⟨framesOnly_writeSock st c.sockId (errMsg now), rfl⟩
      | some m =>
        dsimp only
        have hmem : trim l ∈ recordsOfLines (l :: ls) := by
          rw [hsplit, if_pos ht]
          exact List.mem_cons_self _ _
        have hmtype := hgood (trim l) hmem m hp
        rw [if_neg (fun hco => hmtype hco.1)]
        rw [if_neg (by rw [connAuthed_of_false st c hauthd]; simp)]
        exact ih st c hauthd hgood'

/-- Feeding any chunk sequence without HTTP-looking chunks to an
unauthenticated connection whose records never parse to device_info
leaves the whole system untouched except for written error frames, and
the connection stays unauthenticated and open. -/
theorem feedConn_preauth (parse : Str → Option TCPMessage) (now : Nat) :
    ∀ (chunks : List Str) (st : SystemState) (c : ConnLocal),
    c.authed = false → c.ended = false →
    (∀ ch ∈ chunks, isHttpChunk ch = false) →
    (∀ t ∈ recordsOfLines (completeLines (c.buffer ++ concatChunks chunks)),
       ∀ m, parse t = some m → ¬ m.type = "device_info") →
    framesOnly st (feedConn parse now st c chunks).1 ∧
    (feedConn parse now st c chunks).2.1.authed = false ∧
    (feedConn parse now st c chunks).2.1.ended = false := by
  intro chunks
  induction chunks with
  | nil =>
    intro st c hauthd hend _ _
    exact ⟨framesOnly_refl st, hauthd, hend⟩
  | cons ch rest ih =>
    intro st c hauthd hend hhttp hgood
    have htot : c.buffer ++ concatChunks (ch :: rest) =
        (c.buffer ++ ch) ++ concatChunks rest := by
      rw [concatChunks, List.append_assoc]
    have hrecsplit :
        recordsOfLines (completeLines (c.buffer ++ concatChunks (ch :: rest))) =
        recordsOfLines (completeLines (c.buffer ++ ch)) ++
        recordsOfLines (completeLines (lastPart (c.buffer ++ ch) ++ concatChunks rest)) := by
      rw [htot, completeLines_append, recordsOfLines_append]
    simp only [feedConn]
    rw [handleData_run parse now st c ch hend (hhttp ch (List.mem_cons_self ch rest))]
    have hrun := runConnLines_preauth parse now (completeLines (c.buffer ++ ch)) st
      { c with buffer := lastPart (c.buffer ++ ch) } hauthd
      (by
        intro t htm
        exact hgood t (by rw [hrecsplit]; exact List.mem_append_left _ htm))
    have hrec := ih (runConnLines parse now st
        { c with buffer := lastPart (c.buffer ++ ch) }
        (completeLines (c.buffer ++ ch))).1
      (runConnLines parse now st { c with buffer := lastPart (c.buffer ++ ch) }
        (completeLines (c.buffer ++ ch))).2.1
      (by rw [hrun.2]; exact hauthd)
      (by rw [hrun.2]; exact hend)
      (fun ch' hch' => hhttp ch' (List.mem_cons_of_mem ch hch'))
      (by
        rw [hrun.2]
        intro t htm
        exact hgood t (by rw [hrecsplit]; exact List.mem_append_right _ htm))
    exact ⟨framesOnly_trans st _ _ hrun.1 hrec.1, hrec.2.1, hrec.2.2⟩

/-- C7 (amended): every pre-authentication frame other than a device_info
identity frame is ignored: the connection stays unauthenticated forever,
and the server never closes it for this - there is no bounded retry
window and no protocol_violation close.  The registry, connection table,
timers, storage and manager state are untouched; only error notifications
for unparsable records are written. -/
theorem c7_preauth_nonidentity_ignored_forever (parse : Str → Option TCPMessage)
    (now : Nat) (st : SystemState) (c : ConnLocal) (chunks : List Str)
    (hauthd : c.authed = false) (hend : c.ended = false)
    (hhttp : ∀ ch ∈ chunks, isHttpChunk ch = false)
    (hgood : ∀ t ∈ recordsOfLines (completeLines (c.buffer ++ concatChunks chunks)),
       ∀ m, parse t = some m → ¬ m.type = "device_info") :
    (feedConn parse now st c chunks).2.1.authed = false ∧
    (feedConn parse now st c chunks).2.1.ended = false ∧
    (feedConn parse now st c chunks).1.connections = st.connections ∧
    (feedConn parse now st c chunks).1.connTable = st.connTable ∧
    (∀ r, sockDestroyed (feedConn parse now st c chunks).1 r = sockDestroyed st r ∧
          sockEnded (feedConn parse now st c chunks).1 r = sockEnded st r) := by
  have h := feedConn_preauth parse now chunks st c hauthd hend hhttp hgood
  exact ⟨h.2.1, h.2.2, h.1.1, h.1.2.1, h.1.2.2.2.2.2.2.2⟩

/-- C7 witness: two pre-authentication heartbeat chunks on a fresh
connection leave it unauthenticated, open, and the registry untouched. -/
theorem c7_preauth_nonidentity_ignored_forever_witness :
    (feedConn parseDemo 2500 stReader connLocal5 [hbChunk, hbChunk]).2.1.authed
      = false ∧
    (feedConn parseDemo 2500 stReader connLocal5 [hbChunk, hbChunk]).2.1.ended
      = false ∧
    (feedConn parseDemo 2500 stReader connLocal5 [hbChunk, hbChunk]).1.connections
      = stReader.connections ∧
    (feedConn parseDemo 2500 stReader connLocal5 [hbChunk, hbChunk]).1.connTable
      = stReader.connTable ∧
    (∀ r, sockDestroyed (feedConn parseDemo 2500 stReader connLocal5
            [hbChunk, hbChunk]).1 r = sockDestroyed stReader r ∧
          sockEnded (feedConn parseDemo 2500 stReader connLocal5
            [hbChunk, hbChunk]).1 r = sockEnded stReader r) := by
  exact c7_preauth_nonidentity_ignored_forever parseDemo 2500 stReader connLocal5
    [hbChunk, hbChunk] rfl rfl (by decide)
    (by
      intro t ht m hm
      have ht2 : t ∈ [hbRecord, hbRecord] := ht
      have hm2 : m = { type := "heartbeat", timestamp := 2500 } := by
        rcases List.mem_cons.mp ht2 with rfl | ht3
        · rw [show parseDemo hbRecord =
              some { type := "heartbeat", timestamp := 2500 } from rfl] at hm
          exact (Option.some_inj.mp hm).symm
        · rcases List.mem_cons.mp ht3 with rfl | ht4
          · rw [show parseDemo hbRecord =
                some { type := "heartbeat", timestamp := 2500 } from rfl] at hm
            exact (Option.some_inj.mp hm).symm
          · exact absurd ht4 (List.not_mem_nil t)
      rw [hm2]
      decide)

/-- C7 counterexample: after one hundred pre-authentication heartbeat
frames (valid JSON, non-identity) the connection is still open and
unauthenticated; nothing was closed with a protocol violation, contrary
to the claimed bounded window. -/
theorem c7_hundred_preauth_frames_no_close :
    (feedConn parseDemo 2500 stReader connLocal5
      (List.replicate 100 hbChunk)).2.1.authed = false ∧
    (feedConn parseDemo 2500 stReader connLocal5
      (List.replicate 100 hbChunk)).2.1.ended = false ∧
    (feedConn parseDemo 2500 stReader connLocal5
      (List.replicate 100 hbChunk)).1.connections = [] ∧
    sockEnded (feedConn parseDemo 2500 stReader connLocal5
      (List.replicate 100 hbChunk)).1 5 = some false ∧
    sockDestroyed (feedConn parseDemo 2500 stReader connLocal5
      (List.replicate 100 hbChunk)).1 5 = some false := by
  refine ⟨rfl, rfl, rfl, rfl, rfl⟩

end PhoneCommander

namespace PhoneCommander

theorem sockDestroyed_destroySock_other (st : SystemState) (ref r : Nat)
    (h : ¬ r = ref) :
    sockDestroyed (destroySock st ref) r = sockDestroyed st r := by
  unfold sockDestroyed getSock destroySock
  rw [find_sock_map _ (fun s => by by_cases h1 : s.sockId = ref <;> simp [h1])]
  cases hf : st.sockets.find? (fun s => s.sockId = r) with
  | none => rfl
  | some s =>
    have hs : s.sockId = r := by simpa using List.find?_some hf
    have hne : ¬ s.sockId = ref := by rw [hs]; exact h
    simp [hne]

theorem sockEnded_destroySock (st : SystemState) (ref r : Nat) :
    sockEnded (destroySock st ref) r = sockEnded st r := by
  unfold sockEnded getSock destroySock
  rw [find_sock_map _ (fun s => by by_cases h1 : s.sockId = ref <;> simp [h1])]
  cases hf : st.sockets.find? (fun s => s.sockId = r) with
  | none => rfl
  | some s => by_cases h1 : s.sockId = ref <;> simp [h1]

theorem handleDisconnection_flags (st : SystemState) (conn : DeviceConnection) (r : Nat) :
    sockDestroyed (handleDisconnection st conn) r = sockDestroyed st r ∧
    sockEnded (handleDisconnection st conn) r = sockEnded st r :=
  sockFlags_of_sockets_eq st _ (handleDisconnection_sockets st conn) r

/-- The heartbeat sweep never touches a socket that is not referenced by
a registry entry: it only destroys registered sockets. -/
theorem sweep_flags_unregistered (now : Nat) :
    ∀ (entries : List (String × Nat)) (acc : SystemState) (r : Nat),
    r ∉ entries.map Prod.snd →
    sockDestroyed (entries.foldl (sweepStep now) acc) r = sockDestroyed acc r ∧
    sockEnded (entries.foldl (sweepStep now) acc) r = sockEnded acc r := by
  intro entries
  induction entries with
  | nil => intro acc r _; exact ⟨rfl, rfl⟩
  | cons e es ih =>
    intro acc r hr
    have hre : ¬ r = e.2 := by
      intro he
      exact hr (by rw [List.map_cons]; exact he ▸ List.mem_cons_self _ _)
    have hres : r ∉ es.map Prod.snd := by
      intro hm
      exact hr (by rw [List.map_cons]; exact List.mem_cons_of_mem _ hm)
    rw [List.foldl_cons]
    have hstep : sockDestroyed (sweepStep now acc e) r = sockDestroyed acc r ∧
        sockEnded (sweepStep now acc e) r = sockEnded acc r := by
      unfold sweepStep
      cases ht : tableGet acc.connTable e.2 with
      | none => exact ⟨rfl, rfl⟩
      | some conn =>
        dsimp only
        by_cases hstale : 30000 < now - conn.lastHeartbeat
        · rw [if_pos hstale]
          rcases handleDisconnection_flags (destroySock acc e.2) conn r with ⟨h1, h2⟩
          rw [h1, h2, sockDestroyed_destroySock_other acc e.2 r hre,
            sockEnded_destroySock]
          exact ⟨rfl, rfl⟩
        · rw [if_neg hstale]
          exact ⟨rfl, rfl⟩
    rcases ih (sweepStep now acc e) r hres with ⟨h1, h2⟩
    rw [h1, h2, hstep.1, hstep.2]
    exact ⟨rfl, rfl⟩

/-- C10: a connection that never sends a device_info frame never enters
the registry (the registry is unchanged and the closure stays
unauthenticated), and the heartbeat sweeper - which iterates only
registry entries - never destroys or ends its socket: an idle
unauthenticated connection is never closed by the core. -/
theorem c10_unauthenticated_never_swept (parse : Str → Option TCPMessage)
    (now now2 : Nat) (st : SystemState) (c : ConnLocal) (chunks : List Str)
    (hauthd : c.authed = false) (hend : c.ended = false)
    (hhttp : ∀ ch ∈ chunks, isHttpChunk ch = false)
    (hgood : ∀ t ∈ recordsOfLines (completeLines (c.buffer ++ concatChunks chunks)),
       ∀ m, parse t = some m → ¬ m.type = "device_info")
    (hreg : c.sockId ∉ st.connections.map Prod.snd) :
    (feedConn parse now st c chunks).1.connections = st.connections ∧
    (feedConn parse now st c chunks).2.1.authed = false ∧
    sockDestroyed (heartbeatSweep (feedConn parse now st c chunks).1 now2) c.sockId
      = sockDestroyed st c.sockId ∧
    sockEnded (heartbeatSweep (feedConn parse now st c chunks).1 now2) c.sockId
      = sockEnded st c.sockId := by
  have h := feedConn_preauth parse now chunks st c hauthd hend hhttp hgood
  have hconn : (feedConn parse now st c chunks).1.connections = st.connections := h.1.1
  refine ⟨hconn, h.2.1, ?_, ?_⟩
  · unfold heartbeatSweep
    rw [hconn]
    rcases sweep_flags_unregistered now2 st.connections
      (feedConn parse now st c chunks).1 c.sockId hreg with ⟨h1, _⟩
    rw [h1]
    exact (h.1.2.2.2.2.2.2.2 c.sockId).1
  · unfold heartbeatSweep
    rw [hconn]
    rcases sweep_flags_unregistered now2 st.connections
      (feedConn parse now st c chunks).1 c.sockId hreg with ⟨_, h2⟩
    rw [h2]
    exact (h.1.2.2.2.2.2.2.2 c.sockId).2

/-- C10 witness: a fresh connection that only ever sent heartbeats is not
in the registry, and a subsequent sweep leaves its socket untouched. -/
theorem c10_unauthenticated_never_swept_witness :
    (feedConn parseDemo 2500 stReader connLocal5 [hbChunk]).1.connections
      = stReader.connections ∧
    (feedConn parseDemo 2500 stReader connLocal5 [hbChunk]).2.1.authed = false ∧
    sockDestroyed (heartbeatSweep (feedConn parseDemo 2500 stReader connLocal5
      [hbChunk]).1 100000) 5 = sockDestroyed stReader 5 ∧
    sockEnded (heartbeatSweep (feedConn parseDemo 2500 stReader connLocal5
      [hbChunk]).1 100000) 5 = sockEnded stReader 5 := by
  exact c10_unauthenticated_never_swept parseDemo 2500 100000 stReader connLocal5
    [hbChunk] rfl rfl (by decide)
    (by
      intro t ht m hm
      have ht2 : t ∈ [hbRecord] := ht
      rcases List.mem_cons.mp ht2 with rfl | ht3
      · rw [show parseDemo hbRecord =
            some { type := "heartbeat", timestamp := 2500 } from rfl] at hm
        rw [(Option.some_inj.mp hm).symm]
        decide
      · exact absurd ht3 (List.not_mem_nil t))
    (by decide)

end PhoneCommander

namespace PhoneCommander

theorem completeLines_single_record (r : Str) (h : '\n' ∉ r) :
    completeLines (r ++ ['\n']) = [r] ∧ lastPart (r ++ ['\n']) = [] := by
  have hs : splitNl (r ++ ['\n']) = [r, []] := by
    have := splitNl_record r [] h
    simpa [splitNl] using this
  constructor
  · rw [completeLines_def, hs]
    rfl
  · rw [lastPart_def, hs]
    rfl

theorem mapGet_some_any (m : List (String × Nat)) (k : String) (v : Nat)
    (h : mapGet m k = some v) : m.any (fun p => p.1 = k) = true := by
  induction m with
  | nil => exact absurd h (by simp [mapGet, List.find?])
  | cons p ps ih =>
    rw [mapGet_cons] at h
    by_cases hp : p.1 = k
    · exact List.any_eq_true.mpr ⟨p, List.mem_cons_self p ps, by simpa using hp⟩
    · rw [if_neg hp] at h
      rcases List.any_eq_true.mp (ih h) with ⟨q, hq, hqk⟩
      exact List.any_eq_true.mpr ⟨q, List.mem_cons_of_mem p hq, hqk⟩

/-- Normal form of `authenticateDevice` when the device row already
exists: update the row, open a session, log, send the auth response, and
return the new connection object bound to the existing device id. -/
theorem authenticateDevice_existing (st : SystemState) (sid : Nat) (m : TCPMessage)
    (now : Nat) (info : DeviceInfo) (pkg : String) (dev0 : Device)
    (h10 : m.data = .info info) (h11 : info.packageName = some pkg)
    (h12 : st.store.devices.find? (fun d => d.packageName = pkg) = some dev0) :
    authenticateDevice st sid m now =
      (writeSock { st with store := { st.store with
          devices := updateDevice st.store.devices dev0.id (fun d =>
            { d with isConnected := true,
                     batteryLevel := jsOrNat info.batteryLevel dev0.batteryLevel }),
          sessions := st.store.sessions ++
            [{ sid := st.store.nextSid, deviceId := dev0.id, isActive := true }],
          nextSid := st.store.nextSid + 1,
          logs := st.store.logs ++ [{ deviceId := dev0.id, kind := "connection" }] } }
        sid { type := "command_response", deviceId := some dev0.id,
              data := .text "authenticated", timestamp := now },
       some { sockId := sid, deviceId := dev0.id, isAuthenticated := true,
              lastHeartbeat := now }) := by
  unfold authenticateDevice
  rw [h10]
  dsimp only
  rw [h11]
  dsimp only
  rw [h12]

/-- C1 (amended): when a new connection authenticates with a device
identity that already has a bound session, the registry binding is
overwritten in place (last-writer-wins: exactly one binding remains for
that id, now pointing at the new connection), but the prior session is
NOT closed: its socket is left exactly as it was - not destroyed, not
ended, nothing written to it. -/
theorem c1_supersede_single_binding (parse : Str → Option TCPMessage) (now : Nat)
    (st : SystemState) (c : ConnLocal) (r : Str) (m : TCPMessage)
    (info : DeviceInfo) (pkg : String) (dev0 : Device) (oldRef : Nat)
    (h1 : c.ended = false) (h2 : c.authed = false) (h3 : c.buffer = [])
    (h4 : isHttpChunk (r ++ ['\n']) = false) (h5 : '\n' ∉ r)
    (h6 : trim r = r) (h7 : ¬ r = []) (h8 : parse r = some m)
    (h9 : m.type = "device_info") (h10 : m.data = .info info)
    (h11 : info.packageName = some pkg)
    (h12 : st.store.devices.find? (fun d => d.packageName = pkg) = some dev0)
    (h13 : regGet st dev0.id = some oldRef) (h14 : ¬ oldRef = c.sockId)
    (h15 : (st.connections.map Prod.fst).Nodup) :
    regGet (handleData parse now st c (r ++ ['\n'])).1 dev0.id = some c.sockId ∧
    (((handleData parse now st c (r ++ ['\n'])).1.connections.map Prod.fst).Nodup) ∧
    getSock (handleData parse now st c (r ++ ['\n'])).1 oldRef = getSock st oldRef ∧
    (handleData parse now st c (r ++ ['\n'])).2.1.authed = true := by
  have hany := mapGet_some_any st.connections dev0.id oldRef h13
  have hcl := completeLines_single_record r h5
  rw [handleData_run parse now st c (r ++ ['\n']) h1 h4, h3, List.nil_append,
    hcl.1, hcl.2]
  simp only [runConnLines]
  rw [h6, if_neg h7, h8]
  dsimp only
  rw [if_pos (And.intro h9 (by
    rw [connAuthed_of_false st { c with buffer := [] } (by exact h2)]
    simp))]
  rw [authenticateDevice_existing st c.sockId m now info pkg dev0 h10 h11 h12]
  dsimp only
  split
  · refine ⟨?_, ?_, ?_, rfl⟩
    · exact mapGet_mapSet_self st.connections dev0.id c.sockId
    · show ((mapSet st.connections dev0.id c.sockId).map Prod.fst).Nodup
      rw [mapSet_keys_of_any st.connections dev0.id c.sockId hany]
      exact h15
    · rw [getSock_writeSock_other _ c.sockId (errMsg now) oldRef h14]
      show getSock (writeSock _ c.sockId _) oldRef = getSock st oldRef
      rw [getSock_writeSock_other _ c.sockId _ oldRef h14]
      rfl
  · simp only [runConnLines]
    refine ⟨?_, ?_, ?_, trivial⟩
    · exact mapGet_mapSet_self st.connections dev0.id c.sockId
    · show ((mapSet st.connections dev0.id c.sockId).map Prod.fst).Nodup
      rw [mapSet_keys_of_any st.connections dev0.id c.sockId hany]
      exact h15
    · show getSock (writeSock _ c.sockId _) oldRef = getSock st oldRef
      rw [getSock_writeSock_other _ c.sockId _ oldRef h14]
      rfl

/-- C1 witness: socket 2 authenticates with the package name already
bound to socket 1: the binding moves to socket 2, keys stay unique, and
socket 1 is untouched. -/
theorem c1_supersede_single_binding_witness :
    regGet (handleData parseDemo 2000 stSupersede connLocal2
      (infoRecord ++ ['\n'])).1 "dev-0" = some 2 ∧
    (((handleData parseDemo 2000 stSupersede connLocal2
      (infoRecord ++ ['\n'])).1.connections.map Prod.fst).Nodup) ∧
    getSock (handleData parseDemo 2000 stSupersede connLocal2
      (infoRecord ++ ['\n'])).1 1 = getSock stSupersede 1 ∧
    (handleData parseDemo 2000 stSupersede connLocal2
      (infoRecord ++ ['\n'])).2.1.authed = true := by
  exact c1_supersede_single_binding parseDemo 2000 stSupersede connLocal2
    infoRecord
    ({ type := "device_info",
       data := MsgData.info ({ packageName := some "com.smartcontrol.client" }
         : DeviceInfo),
       timestamp := 2000 } : TCPMessage)
    ({ packageName := some "com.smartcontrol.client" } : DeviceInfo)
    "com.smartcontrol.client" demoDevice 1
    rfl rfl rfl (by decide) (by decide) (by decide) (by decide) rfl rfl rfl rfl
    rfl rfl (by decide) (by decide)

/-- C1 counterexample: after the supersede, the registry points at socket
2, but the prior session on socket 1 was not closed: its socket is
neither destroyed nor ended, and a heartbeat frame arriving on the old
connection is still received and dispatched.  The claim that the prior
session is closed and can no longer receive or send frames is false. -/
theorem c1_prior_session_not_closed :
    regGet stAfterSupersede "dev-0" = some 2 ∧
    sockDestroyed stAfterSupersede 1 = some false ∧
    sockEnded stAfterSupersede 1 = some false ∧
    (handleData parseDemo 2600 stAfterSupersede connLocal1 hbChunk).2.2.1
      = [hbRecord] := by
  refine ⟨rfl, rfl, rfl, rfl⟩

end PhoneCommander

namespace PhoneCommander

/-! The heartbeat sweeper: per-entry effect and preservation of the other
entries. -/

theorem find_dev_map (g : Device → Device) (hid : ∀ d, (g d).id = d.id)
    (l : List Device) (did : String) :
    (l.map g).find? (fun d => d.id = did) = (l.find? (fun d => d.id = did)).map g := by
  induction l with
  | nil => rfl
  | cons d ds ih =>
    by_cases hd : d.id = did
    · simp [List.find?, hid, hd]
    · simp [List.find?, hid, hd, ih]

theorem getSock_of_sockets_eq (st st' : SystemState) (h : st'.sockets = st.sockets)
    (r : Nat) : getSock st' r = getSock st r := by
  unfold getSock
  rw [h]

theorem devConnected_of_devices_eq (st st' : SystemState)
    (h : st'.store.devices = st.store.devices) (did : String) :
    devConnected st' did = devConnected st did := by
  unfold devConnected
  rw [h]

theorem getSock_destroySock_other (st : SystemState) (ref r : Nat) (h : ¬ r = ref) :
    getSock (destroySock st ref) r = getSock st r := by
  unfold getSock destroySock
  rw [find_sock_map _ (fun s => by by_cases h1 : s.sockId = ref <;> simp [h1])]
  cases hf : st.sockets.find? (fun s => s.sockId = r) with
  | none => rfl
  | some s =>
    have hs : s.sockId = r := by simpa using List.find?_some hf
    have hne : ¬ s.sockId = ref := by rw [hs]; exact h
    simp [hne]

theorem sockDestroyed_destroySock_self (st : SystemState) (ref : Nat) :
    sockDestroyed (destroySock st ref) ref = (sockDestroyed st ref).map (fun _ => true) := by
  unfold sockDestroyed getSock destroySock
  rw [find_sock_map _ (fun s => by by_cases h1 : s.sockId = ref <;> simp [h1])]
  cases hf : st.sockets.find? (fun s => s.sockId = ref) with
  | none => rfl
  | some s =>
    have hs : s.sockId = ref := by simpa using List.find?_some hf
    simp [hs]

theorem devConnected_updateDevice_self (st : SystemState) (did : String)
    (f : Device → Device) (hid : ∀ d, (f d).id = d.id) :
    devConnected { st with store := { st.store with
        devices := updateDevice st.store.devices did f } } did =
      (devConnected st did).map (fun _ => ((st.store.devices.find?
        (fun d => d.id = did)).map (fun d => (f d).isConnected)).getD false) := by
  unfold devConnected updateDevice
  show ((st.store.devices.map fun d => if d.id = did then f d else d).find?
      (fun d => d.id = did)).map (fun d => d.isConnected) = _
  rw [find_dev_map _ (fun d => by by_cases h1 : d.id = did <;> simp [h1, hid])]
  cases hf : st.store.devices.find? (fun d => d.id = did) with
  | none => rfl
  | some d =>
    have hd : d.id = did := by simpa using List.find?_some hf
    simp [hd]

theorem devConnected_updateDevice_other (st : SystemState) (x did : String)
    (f : Device → Device) (hid : ∀ d, (f d).id = d.id) (h : ¬ did = x) :
    devConnected { st with store := { st.store with
        devices := updateDevice st.store.devices x f } } did = devConnected st did := by
  unfold devConnected updateDevice
  show ((st.store.devices.map fun d => if d.id = x then f d else d).find?
      (fun d => d.id = did)).map (fun d => d.isConnected) = _
  rw [find_dev_map _ (fun d => by by_cases h1 : d.id = x <;> simp [h1, hid])]
  cases hf : st.store.devices.find? (fun d => d.id = did) with
  | none => rfl
  | some d =>
    have hd : d.id = did := by simpa using List.find?_some hf
    have hdx : ¬ d.id = x := by rw [hd]; exact h
    simp [hdx]

theorem mapGet_of_mem_nodup (m : List (String × Nat)) (k : String) (v : Nat)
    (hmem : (k, v) ∈ m) (hnd : (m.map Prod.fst).Nodup) : mapGet m k = some v := by
  induction m with
  | nil => exact absurd hmem (List.not_mem_nil _)
  | cons p ps ih =>
    rw [List.map_cons, List.nodup_cons] at hnd
    rw [mapGet_cons]
    rcases List.mem_cons.mp hmem with rfl | hmem'
    · rw [if_pos rfl]
    · have hp : ¬ p.1 = k := by
        intro he
        exact hnd.1 (he ▸ List.mem_map.mpr ⟨(k, v), hmem', rfl⟩)
      rw [if_neg hp]
      exact ih hmem' hnd.2

theorem handleDisconnection_dm (st : SystemState) (conn : DeviceConnection) :
    (handleDisconnection st conn).connTable = st.connTable ∧
    (handleDisconnection st conn).sockets = st.sockets :=
  ⟨handleDisconnection_connTable st conn, handleDisconnection_sockets st conn⟩

theorem sweepStep_connTable (now : Nat) (acc : SystemState) (e : String × Nat) :
    (sweepStep now acc e).connTable = acc.connTable := by
  unfold sweepStep
  cases ht : tableGet acc.connTable e.2 with
  | none => rfl
  | some conn =>
    dsimp only
    by_cases hstale : 30000 < now - conn.lastHeartbeat
    · rw [if_pos hstale, handleDisconnection_connTable]
      rfl
    · rw [if_neg hstale]

theorem sweep_fold_connTable (now : Nat) :
    ∀ (entries : List (String × Nat)) (acc : SystemState),
    (entries.foldl (sweepStep now) acc).connTable = acc.connTable := by
  intro entries
  induction entries with
  | nil => intro acc; rfl
  | cons e es ih =>
    intro acc
    rw [List.foldl_cons, ih, sweepStep_connTable]

/-- A sweep step on an entry whose socket reference differs from `ref`
and whose connection object is for a device other than `did` preserves
the binding of `did`, the socket `ref`, and the device row of `did`. -/
theorem sweepStep_pres (now : Nat) (acc : SystemState) (e : String × Nat)
    (did : String) (ref : Nat) (href : ¬ e.2 = ref)
    (hdev : ∀ conn, tableGet acc.connTable e.2 = some conn → ¬ conn.deviceId = did) :
    regGet (sweepStep now acc e) did = regGet acc did ∧
    getSock (sweepStep now acc e) ref = getSock acc ref ∧
    devConnected (sweepStep now acc e) did = devConnected acc did := by
  unfold sweepStep
  cases ht : tableGet acc.connTable e.2 with
  | none => exact ⟨rfl, rfl, rfl⟩
  | some conn =>
    dsimp only
    have hcd : ¬ conn.deviceId = did := hdev conn ht
    by_cases hstale : 30000 < now - conn.lastHeartbeat
    · rw [if_pos hstale]
      refine ⟨?_, ?_, ?_⟩
      · unfold regGet
        rw [handleDisconnection_connections]
        show mapGet (mapDelete (destroySock acc e.2).connections conn.deviceId) did = _
        rw [mapGet_mapDelete_ne _ conn.deviceId did (fun h => hcd h.symm)]
        rfl
      · rw [getSock_of_sockets_eq _ _ (handleDisconnection_sockets _ conn) ref,
          getSock_destroySock_other acc e.2 ref (fun h => href h.symm)]
      · have h1 : devConnected (handleDisconnection (destroySock acc e.2) conn) did =
            devConnected (destroySock acc e.2) did := by
          have hst := handleDisconnection_store (destroySock acc e.2) conn
          unfold devConnected
          rw [hst]
          have := devConnected_updateDevice_other (destroySock acc e.2)
            conn.deviceId did (fun d => { d with isConnected := false })
            (fun d => rfl) (fun h => hcd h.symm)
          unfold devConnected updateDevice at this
          simpa [updateDevice] using this
        rw [h1]
        rfl
    · rw [if_neg hstale]
      exact ⟨rfl, rfl, rfl⟩

theorem sweep_fold_pres (now : Nat) (did : String) (ref : Nat) :
    ∀ (entries : List (String × Nat)) (acc : SystemState),
    (∀ e ∈ entries, ¬ e.2 = ref ∧
       (∀ conn, tableGet acc.connTable e.2 = some conn → ¬ conn.deviceId = did)) →
    regGet (entries.foldl (sweepStep now) acc) did = regGet acc did ∧
    getSock (entries.foldl (sweepStep now) acc) ref = getSock acc ref ∧
    devConnected (entries.foldl (sweepStep now) acc) did = devConnected acc did := by
  intro entries
  induction entries with
  | nil => intro acc _; exact ⟨rfl, rfl, rfl⟩
  | cons e es ih =>
    intro acc hh
    rcases hh e (List.mem_cons_self e es) with ⟨h1, h2⟩
    have hstep := sweepStep_pres now acc e did ref h1 h2
    rw [List.foldl_cons]
    have hes : ∀ e' ∈ es, ¬ e'.2 = ref ∧
        (∀ conn, tableGet (sweepStep now acc e).connTable e'.2 = some conn →
           ¬ conn.deviceId = did) := by
      intro e' he'
      rcases hh e' (List.mem_cons_of_mem e he') with ⟨g1, g2⟩
      refine ⟨g1, ?_⟩
      rw [sweepStep_connTable]
      exact g2
    rcases ih (sweepStep now acc e) hes with ⟨i1, i2, i3⟩
    rw [i1, i2, i3, hstep.1, hstep.2.1, hstep.2.2]
    exact ⟨rfl, rfl, rfl⟩

end PhoneCommander

namespace PhoneCommander

theorem devConnected_handleDisconnection_self (st : SystemState)
    (conn : DeviceConnection) :
    devConnected (handleDisconnection st conn) conn.deviceId =
      (devConnected st conn.deviceId).map (fun _ => false) := by
  have hst := handleDisconnection_store st conn
  unfold devConnected
  rw [hst]
  show ((updateDevice st.store.devices conn.deviceId
      (fun d => { d with isConnected := false })).find?
      (fun d => d.id = conn.deviceId)).map (fun d => d.isConnected) = _
  unfold updateDevice
  rw [find_dev_map _ (fun d => by
    by_cases h1 : d.id = conn.deviceId <;> simp [h1]) st.store.devices conn.deviceId]
  cases hf : st.store.devices.find? (fun d => d.id = conn.deviceId) with
  | none => rfl
  | some d =>
    have hd : d.id = conn.deviceId := by simpa using List.find?_some hf
    simp [hd]

theorem sockDestroyed_of_getSock_eq (st st' : SystemState) (r : Nat)
    (h : getSock st' r = getSock st r) :
    sockDestroyed st' r = sockDestroyed st r ∧ sockEnded st' r = sockEnded st r := by
  unfold sockDestroyed sockEnded
  rw [h]
  exact ⟨rfl, rfl⟩

theorem sweepStep_eq_of_stale (now : Nat) (acc : SystemState) (e : String × Nat)
    (conn : DeviceConnection) (ht : tableGet acc.connTable e.2 = some conn)
    (h : 30000 < now - conn.lastHeartbeat) :
    sweepStep now acc e = handleDisconnection (destroySock acc e.2) conn := by
  unfold sweepStep
  rw [ht]
  dsimp only
  rw [if_pos h]

theorem sweepStep_eq_of_fresh (now : Nat) (acc : SystemState) (e : String × Nat)
    (conn : DeviceConnection) (ht : tableGet acc.connTable e.2 = some conn)
    (h : ¬ 30000 < now - conn.lastHeartbeat) :
    sweepStep now acc e = acc := by
  unfold sweepStep
  rw [ht]
  dsimp only
  rw [if_neg h]

/-- C5: one run of the heartbeat sweeper.  A bound session whose last
activity is more than the 30000 ms liveness timeout old is evicted: its
registry binding is removed, its socket destroyed, and its device row
marked disconnected.  A bound session within the timeout is left
unchanged: binding kept, socket untouched, device row untouched. -/
theorem c5_heartbeat_sweeper (st : SystemState) (now : Nat) (did : String)
    (ref : Nat) (dc : DeviceConnection) (hwf : WF st)
    (hmem : (did, ref) ∈ st.connections)
    (hdc : tableGet st.connTable ref = some dc) :
    (30000 < now - dc.lastHeartbeat →
       regGet (heartbeatSweep st now) did = none ∧
       sockDestroyed (heartbeatSweep st now) ref
         = (sockDestroyed st ref).map (fun _ => true) ∧
       devConnected (heartbeatSweep st now) did
         = (devConnected st did).map (fun _ => false)) ∧
    (¬ 30000 < now - dc.lastHeartbeat →
       regGet (heartbeatSweep st now) did = some ref ∧
       getSock (heartbeatSweep st now) ref = getSock st ref ∧
       devConnected (heartbeatSweep st now) did = devConnected st did) := by
  obtain ⟨l1, l2, hsplit⟩ := List.append_of_mem hmem
  have hdcdid : dc.deviceId = did ∧ dc.sockId = ref := by
    rcases hwf.consistent (did, ref) hmem with ⟨dc', hdc', hdid', hsid'⟩
    rw [hdc] at hdc'
    cases hdc'
    exact ⟨hdid', hsid'⟩
  have hkeys := hwf.keysNodup
  have hrefs := hwf.refsNodup
  rw [hsplit, List.map_append, List.map_cons, List.nodup_append] at hkeys hrefs
  have hdidK1 : ∀ e ∈ l1, ¬ e.1 = did := by
    intro e he h
    exact hkeys.2.2 (List.mem_map.mpr ⟨e, he, rfl⟩) (h ▸ List.mem_cons_self _ _)
  have hdidK2 : ∀ e ∈ l2, ¬ e.1 = did := by
    intro e he h
    exact (List.nodup_cons.mp hkeys.2.1).1 (h ▸ List.mem_map.mpr ⟨e, he, rfl⟩)
  have hrefR1 : ∀ e ∈ l1, ¬ e.2 = ref := by
    intro e he h
    exact hrefs.2.2 (List.mem_map.mpr ⟨e, he, rfl⟩) (h ▸ List.mem_cons_self _ _)
  have hrefR2 : ∀ e ∈ l2, ¬ e.2 = ref := by
    intro e he h
    exact (List.nodup_cons.mp hrefs.2.1).1 (h ▸ List.mem_map.mpr ⟨e, he, rfl⟩)
  have hcons : ∀ e ∈ st.connections, ∀ conn,
      tableGet st.connTable e.2 = some conn → conn.deviceId = e.1 := by
    intro e he conn hconn
    rcases hwf.consistent e he with ⟨dc', hdc', hdid', _⟩
    rw [hdc'] at hconn
    cases hconn
    exact hdid'
  have hg1 : ∀ e ∈ l1, ¬ e.2 = ref ∧
      (∀ conn, tableGet st.connTable e.2 = some conn → ¬ conn.deviceId = did) := by
    intro e he
    refine ⟨hrefR1 e he, fun conn hconn h => ?_⟩
    have hmem' : e ∈ st.connections := by
      rw [hsplit]; exact List.mem_append_left _ he
    exact hdidK1 e he ((hcons e hmem' conn hconn) ▸ h)
  have hsweep : heartbeatSweep st now =
      List.foldl (sweepStep now)
        (sweepStep now (List.foldl (sweepStep now) st l1) (did, ref)) l2 := by
    unfold heartbeatSweep
    rw [hsplit, List.foldl_append, List.foldl_cons]
  have hA1 := sweep_fold_pres now did ref l1 st hg1
  have hA1ct : (List.foldl (sweepStep now) st l1).connTable = st.connTable :=
    sweep_fold_connTable now l1 st
  have hregst : regGet st did = some ref := by
    unfold regGet
    exact mapGet_of_mem_nodup st.connections did ref hmem hwf.keysNodup
  have htgA1 : tableGet (List.foldl (sweepStep now) st l1).connTable ref = some dc := by
    rw [hA1ct]; exact hdc
  constructor
  · intro hstale
    have hstep : sweepStep now (List.foldl (sweepStep now) st l1) (did, ref) =
        handleDisconnection (destroySock (List.foldl (sweepStep now) st l1) ref) dc :=
      sweepStep_eq_of_stale now (List.foldl (sweepStep now) st l1) (did, ref) dc
        htgA1 hstale
    have hg2 : ∀ e ∈ l2, ¬ e.2 = ref ∧
        (∀ conn, tableGet (handleDisconnection
            (destroySock (List.foldl (sweepStep now) st l1) ref) dc).connTable e.2
          = some conn → ¬ conn.deviceId = did) := by
      intro e he
      refine ⟨hrefR2 e he, fun conn hconn h => ?_⟩
      rw [handleDisconnection_connTable] at hconn
      have hconn2 : tableGet st.connTable e.2 = some conn := by
        rw [← hA1ct]; exact hconn
      have hmem' : e ∈ st.connections := by
        rw [hsplit]
        exact List.mem_append_right _ (List.mem_cons_of_mem _ he)
      exact hdidK2 e he ((hcons e hmem' conn hconn2) ▸ h)
    have hB := sweep_fold_pres now did ref l2 _ hg2
    rw [hsweep, hstep]
    refine ⟨?_, ?_, ?_⟩
    · rw [hB.1]
      unfold regGet
      rw [handleDisconnection_connections]
      show mapGet (mapDelete (List.foldl (sweepStep now) st l1).connections dc.deviceId)
        did = none
      rw [hdcdid.1]
      exact mapGet_mapDelete_self _ did
    · rcases sockDestroyed_of_getSock_eq _ _ ref hB.2.1 with ⟨hbd, _⟩
      rw [hbd]
      rcases sockDestroyed_of_getSock_eq _ _ ref
        (getSock_of_sockets_eq _ _ (handleDisconnection_sockets _ dc) ref) with ⟨hhd, _⟩
      rw [hhd, sockDestroyed_destroySock_self]
      rcases sockDestroyed_of_getSock_eq _ _ ref hA1.2.1 with ⟨ha, _⟩
      rw [ha]
    · rw [hB.2.2, ← hdcdid.1, devConnected_handleDisconnection_self]
      rw [hdcdid.1]
      have : devConnected (destroySock (List.foldl (sweepStep now) st l1) ref) did
          = devConnected st did := by
        rw [devConnected_of_devices_eq _ _ rfl did]
        exact hA1.2.2
      rw [this]
  · intro hfresh
    have hstep : sweepStep now (List.foldl (sweepStep now) st l1) (did, ref) =
        List.foldl (sweepStep now) st l1 :=
      sweepStep_eq_of_fresh now (List.foldl (sweepStep now) st l1) (did, ref) dc
        htgA1 hfresh
    have hg2 : ∀ e ∈ l2, ¬ e.2 = ref ∧
        (∀ conn, tableGet (List.foldl (sweepStep now) st l1).connTable e.2
          = some conn → ¬ conn.deviceId = did) := by
      intro e he
      refine ⟨hrefR2 e he, fun conn hconn h => ?_⟩
      have hconn2 : tableGet st.connTable e.2 = some conn := by
        rw [← hA1ct]; exact hconn
      have hmem' : e ∈ st.connections := by
        rw [hsplit]
        exact List.mem_append_right _ (List.mem_cons_of_mem _ he)
      exact hdidK2 e he ((hcons e hmem' conn hconn2) ▸ h)
    have hB := sweep_fold_pres now did ref l2 _ hg2
    rw [hsweep, hstep]
    refine ⟨?_, ?_, ?_⟩
    · rw [hB.1, hA1.1]
      exact hregst
    · rw [hB.2.1, hA1.2.1]
    · rw [hB.2.2, hA1.2.2]

/-- C5 witness: at time 40000, the session of `dev-0` (last heard at 0)
is evicted - binding gone, socket 1 destroyed, device row marked
disconnected - while the session of `dev-1` (last heard at 35000) is
left fully unchanged. -/
theorem c5_heartbeat_sweeper_witness :
    (regGet (heartbeatSweep stSweep 40000) "dev-0" = none ∧
     sockDestroyed (heartbeatSweep stSweep 40000) 1
       = (sockDestroyed stSweep 1).map (fun _ => true) ∧
     devConnected (heartbeatSweep stSweep 40000) "dev-0"
       = (devConnected stSweep "dev-0").map (fun _ => false)) ∧
    (regGet (heartbeatSweep stSweep 40000) "dev-1" = some 2 ∧
     getSock (heartbeatSweep stSweep 40000) 2 = getSock stSweep 2 ∧
     devConnected (heartbeatSweep stSweep 40000) "dev-1"
       = devConnected stSweep "dev-1") := by
  have hwf : WF stSweep := by
    refine ⟨by decide, by decide, ?_⟩
    intro p hp
    rcases List.mem_cons.mp hp with rfl | hp2
    · exact ⟨_, rfl, rfl, rfl⟩
    · rcases List.mem_cons.mp hp2 with rfl | hp3
      · exact ⟨_, rfl, rfl, rfl⟩
      · exact absurd hp3 (List.not_mem_nil p)
  constructor
  · exact (c5_heartbeat_sweeper stSweep 40000 "dev-0" 1
      ({ sockId := 1, deviceId := "dev-0", isAuthenticated := true, lastHeartbeat := 0 } : DeviceConnection)
      hwf (by decide) rfl).1 (by decide)
  · exact (c5_heartbeat_sweeper stSweep 40000 "dev-1" 2
      ({ sockId := 2, deviceId := "dev-1", isAuthenticated := true, lastHeartbeat := 35000 } : DeviceConnection)
      hwf (by decide) rfl).2 (by decide)

end PhoneCommander
